import Mathlib

/-!
Verification development for the `bud` budgeting engine.

This file shallowly embeds the recurrence-expansion / forecast-materialization /
budget-reconciliation engine of the `bud` repository and proves properties of it.

Sources embedded:
* `bud/services/recurrences.py` — month arithmetic (`_month_offset`,
  `_months_between`), `get_recurrences_for_month`, `get_installment_number`.
* `bud/services/forecasts.py` — `forecast_exists_for_recurrence`, `create_forecast`.
* `bud/services/budgets.py` — `_parse_month_dates`, `create_budget`,
  `_populate_recurrent_forecasts`.
* `bud/services/reports.py` — `generate_report`,
  `_calculate_accumulated_remaining`, `_calculate_projected_net_balance`.
* `bud/services/transactions.py` — `create_transaction`, `update_transaction`,
  `delete_transaction` (double-entry counterpart pairs).
* `bud/commands/forecasts.py` — the validation prefix of the `forecast create`
  command (`_resolve_or_create_budget_id` and the `current_installment` checks).

Conventions: machine strings are Lean `String`s but every operation on them is
a concrete function defined here over `String.data` (Python's `str` comparison
is code-point lexicographic, `str.lower` is per-character for the ASCII data
handled here, `in` is contiguous-substring containment, `int()` on a digit
string is decimal value).  Monetary `Decimal` values are embedded as `Int`
(the engine only adds, negates and compares them).  Database ids (UUIDs) are
embedded as `Nat` drawn from a freshness counter.  Fallible code returns
`Option`/`Except`.
-/

/-! ## String primitives -/

/-- Lexicographic (code-point) strict comparison of char lists, as Python
compares `str` values and SQLite compares TEXT columns. -/
def listLtB : List Char → List Char → Bool
  | [], [] => false
  | [], _ :: _ => true
  | _ :: _, [] => false
  | a :: as, b :: bs => if a < b then true else if b < a then false else listLtB as bs

/-- Python `a < b` on strings. -/
def strLtB (a b : String) : Bool := listLtB a.data b.data

/-- Python `a <= b` on strings (total order: `a <= b` iff not `b < a`). -/
def strLeB (a b : String) : Bool := !(strLtB b a)

/-- Python `ch.lower()` for the ASCII characters the data holds. -/
def lowerChar (c : Char) : Char :=
  if 'A' ≤ c ∧ c ≤ 'Z' then Char.ofNat (c.toNat + 32) else c

/-- Python `s.lower()` viewed as a char list. -/
def lowerList (s : String) : List Char := s.data.map lowerChar

/-- Char-list prefix test. -/
def isPrefB : List Char → List Char → Bool
  | [], _ => true
  | _ :: _, [] => false
  | a :: as, b :: bs => a == b && isPrefB as bs

/-- Python `needle in hay` on strings: contiguous substring containment. -/
def containsSub (needle hay : List Char) : Bool :=
  match hay with
  | [] => isPrefB needle []
  | _ :: t => isPrefB needle hay || containsSub needle t

/-- Python `needle.lower() in hay.lower()`. -/
def containsCI (needle hay : String) : Bool :=
  containsSub (lowerList needle) (lowerList hay)

/-! ## Month arithmetic (`bud/services/recurrences.py`) -/

/-- Python `s.split("-")` on a char list. -/
def splitDash : List Char → List (List Char)
  | [] => [[]]
  | c :: t =>
    if c = '-' then [] :: splitDash t
    else
      match splitDash t with
      | s :: rest => (c :: s) :: rest
      | [] => [[c]]

/-- Decimal value of a digit char. -/
def charDigitVal (c : Char) : Nat := c.toNat - 48

/-- Is the char an ASCII decimal digit. -/
def isDigitB (c : Char) : Bool := decide ('0' ≤ c) && decide (c ≤ '9')

/-- Decimal value of a digit list (most significant first). -/
def digitsVal (l : List Char) : Nat := l.foldl (fun a c => a * 10 + charDigitVal c) 0

/-- Python `int()` on one split segment: succeeds on a non-empty all-digit
string and yields its decimal value (the YYYY-MM tokens the engine handles
never carry signs or whitespace). -/
def toNatQ (l : List Char) : Option Nat :=
  if l ≠ [] ∧ l.all isDigitB then some (digitsVal l) else none

/-- `year, month = map(int, start.split("-"))`: parse a month token. -/
def parseMonth (s : String) : Option (Nat × Nat) :=
  match splitDash s.data with
  | [y, m] =>
    match toNatQ y, toNatQ m with
    | some yv, some mv => some (yv, mv)
    | _, _ => none
  | _ => none

/-- Decimal digits of a natural number, most significant first. -/
def natDigits (n : Nat) : List Char :=
  if _h : n < 10 then [Nat.digitChar n]
  else natDigits (n / 10) ++ [Nat.digitChar (n % 10)]
  decreasing_by exact Nat.div_lt_self (by omega) (by omega)

/-- Left-pad with `'0'` to the given width. -/
def padLeft (w : Nat) (l : List Char) : List Char :=
  List.replicate (w - l.length) '0' ++ l

/-- Python `f"{v:0wd}"` for an integer: zero-pad to total width `w`,
sign included in the width. -/
def renderIntPad (w : Nat) (v : Int) : List Char :=
  if v < 0 then '-' :: padLeft (w - 1) (natDigits (-v).toNat)
  else padLeft w (natDigits v.toNat)

/-- Python `f"{year:04d}-{month:02d}"`. -/
def renderTok (y m : Int) : String :=
  ⟨renderIntPad 4 y ++ '-' :: renderIntPad 2 m⟩

/-- The canonical token for an in-range year/month. -/
def renderMonth (y m : Nat) : String := renderTok (y : Int) (m : Int)

/-- `while month > 12: month -= 12; year += 1` from `_month_offset`. -/
def carryUp (y m : Int) : Int × Int :=
  if 12 < m then carryUp (y + 1) (m - 12) else (y, m)
  termination_by (m - 12).toNat
  decreasing_by omega

/-- `while month < 1: month += 12; year -= 1` from `_month_offset`. -/
def borrowDown (y m : Int) : Int × Int :=
  if m < 1 then borrowDown (y - 1) (m + 12) else (y, m)
  termination_by (1 - m).toNat
  decreasing_by omega

/-- `_month_offset(start, n)`: the YYYY-MM string that is n months after
start.  `none` is the `InvalidMonthToken` failure on unparseable input. -/
def _month_offset (start : String) (n : Int) : Option String :=
  match parseMonth start with
  | none => none
  | some (y, m) =>
    let p := carryUp (y : Int) ((m : Int) + n)
    let q := borrowDown p.1 p.2
    some (renderTok q.1 q.2)

/-- `_months_between(start, end)`: `(ey - sy) * 12 + (em - sm)`. -/
def _months_between (start stop : String) : Option Int :=
  match parseMonth start, parseMonth stop with
  | some (sy, sm), some (ey, em) =>
    some (((ey : Int) - sy) * 12 + ((em : Int) - sm))
  | _, _ => none

/-- A valid month token: parses to a month in 01..12 with a zero-padded
four-digit year, and is exactly the canonical rendering of that pair. -/
def isValidTok (s : String) : Bool :=
  match parseMonth s with
  | some (y, m) => 1 ≤ m && m ≤ 12 && y ≤ 9999 && (s == renderMonth y m)
  | none => false

/-! ## Data model

Records mirror the SQLAlchemy models.  Two generations of the schema coexist
in the repository; where the current-generation model file is absent from the
source tree (only its services, commands and tests remain), the record is
modelled from the spec and says so in its doc comment. -/

/-- Python truthiness of an optional integer field (`if r.installments:`):
`None` and `0` are falsy. -/
def intTruthy : Option Int → Bool
  | none => false
  | some n => n != 0

/-- Python truthiness of an optional string field (`if forecast.description:`):
`None` and `""` are falsy. -/
def strTruthy : Option String → Bool
  | none => false
  | some s => s != ""

/-- A calendar date, compared the way Python `datetime.date` compares:
lexicographically on (year, month, day). -/
structure Dte where
  year : Nat
  month : Nat
  day : Nat
deriving Repr, DecidableEq

/-- Python `a <= b` on dates. -/
def dateLeB (a b : Dte) : Bool :=
  if a.year ≠ b.year then a.year < b.year
  else if a.month ≠ b.month then a.month < b.month
  else a.day ≤ b.day

/-- Python `a < b` on dates. -/
def dateLtB (a b : Dte) : Bool :=
  if a.year ≠ b.year then a.year < b.year
  else if a.month ≠ b.month then a.month < b.month
  else a.day < b.day

/-- `bud/models/recurrence.py` (current generation: template fields live on
the recurrence itself; the `original_forecast_id` column was dropped by the
repository's own `migrate-recurrences` migration in
`bud/commands/db_commands.py` and the model declares no `original_forecast`
relationship). -/
structure Recurrence where
  id : Nat
  start : String
  «end» : Option String
  installments : Option Int
  base_description : Option String
  value : Int
  category_id : Option Nat
  tags : List String
  project_id : Nat
deriving Repr, DecidableEq

/-- Modelled from the spec: the current-generation `Forecast` model
(spec §6 record shape `{id, description, value, budget_id, category_id,
tags, recurrence_id, installment}`).  The `bud/models/forecast.py` present
in the tree is the dead legacy generation (`is_recurrent`/`recurrent_start`/
`recurrent_end` flags, no `recurrence_id`/`installment` columns), while the
services, commands, reports and tests all read and write `recurrence_id`
and `installment`; the model file they were written against is missing from
the source tree. -/
structure Forecast where
  id : Nat
  description : Option String
  value : Int
  budget_id : Nat
  category_id : Option Nat
  tags : List String
  recurrence_id : Option Nat
  installment : Option Int
deriving Repr, DecidableEq

/-- `bud/models/budget.py`. -/
structure Budget where
  id : Nat
  name : String
  start_date : Dte
  end_date : Dte
  project_id : Nat
deriving Repr, DecidableEq

/-- Modelled from the spec: the ledger `Account` with `initial_balance` and
`current_balance` (spec §3).  The `bud/models/account.py` in the tree
declares neither balance column, while `bud/services/reports.py`, the
account commands and the tests all read them; the balance-carrying model
they were written against is missing from the source tree. -/
structure Account where
  id : Nat
  name : String
  initial_balance : Int
  current_balance : Int
deriving Repr, DecidableEq

/-- Modelled from the spec: the single-account ledger `Transaction` read by
`bud/services/reports.py` (`t.account_id`, spec §3 "ledger entry — signed
value, description, date, account, optional category, list of tags").  The
`bud/models/transaction.py` in the tree is the double-entry generation
(`source_account_id`/`destination_account_id`, no `account_id`), embedded
separately below for `bud/services/transactions.py`. -/
structure LedgerTxn where
  id : Nat
  value : Int
  description : String
  date : Dte
  account_id : Nat
  category_id : Option Nat
  tags : List String
  project_id : Nat
deriving Repr, DecidableEq

/-- The record store the forecast/budget/report services run against:
one table per model, a project-account association table
(`bud/models/project.py` `project_accounts`), a flat category table, and a
freshness counter standing for UUID generation. -/
structure DB where
  budgets : List Budget
  forecasts : List Forecast
  recurrences : List Recurrence
  transactions : List LedgerTxn
  accounts : List Account
  project_accounts : List (Nat × Nat)
  categories : List (Nat × String)
  nextId : Nat
deriving Repr, DecidableEq

/-! ## `bud/services/recurrences.py` -/

/-- The per-item applicability loop of `get_recurrences_for_month`
(lines 75-84): keep a candidate if it has (truthy) installments and
`month <= _month_offset(start, installments - 1)`, else if its `end` is
`None` or `month <= end`.  An unparseable `start` in the installments branch
is the propagated `InvalidMonthToken` failure. -/
def applyRecFilter (month : String) : List Recurrence → Except String (List Recurrence)
  | [] => .ok []
  | r :: rest =>
    match r.installments with
    | some n =>
      if n ≠ 0 then
        match _month_offset r.start (n - 1) with
        | none => .error "InvalidMonthToken"
        | some last_month =>
          if strLeB month last_month then (applyRecFilter month rest).map (r :: ·)
          else applyRecFilter month rest
      else
        match r.«end» with
        | none => (applyRecFilter month rest).map (r :: ·)
        | some e =>
          if strLeB month e then (applyRecFilter month rest).map (r :: ·)
          else applyRecFilter month rest
    | none =>
      match r.«end» with
      | none => (applyRecFilter month rest).map (r :: ·)
      | some e =>
        if strLeB month e then (applyRecFilter month rest).map (r :: ·)
        else applyRecFilter month rest

/-- `get_recurrences_for_month(db, project_id, month)`: the two-phase filter —
a cheap range query (`project_id` match and `start <= month`) followed by the
per-item applicability check. -/
def get_recurrences_for_month (db : DB) (project_id : Nat) (month : String) :
    Except String (List Recurrence) :=
  applyRecFilter month
    (db.recurrences.filter (fun r => r.project_id == project_id && strLeB r.start month))

/-- `get_installment_number(recurrence, month)`:
`_months_between(recurrence.start, month) + 1`. -/
def get_installment_number (r : Recurrence) (month : String) : Option Int :=
  (_months_between r.start month).map (· + 1)

/-! ## `bud/services/forecasts.py` -/

/-- `ForecastCreate` as the services consume it.  Modelled from the spec for
the `recurrence_id`/`installment` fields: the `bud/schemas/forecast.py` in
the tree is the legacy generation without them, while
`bud/services/forecasts.py` reads both off the payload. -/
structure ForecastCreate where
  description : Option String
  value : Int
  budget_id : Nat
  category_id : Option Nat
  tags : List String
  recurrence_id : Option Nat := none
  installment : Option Int := none
deriving Repr, DecidableEq

/-- `create_forecast(db, data)`: insert a forecast row with a fresh id. -/
def create_forecast (db : DB) (data : ForecastCreate) : DB × Forecast :=
  let f : Forecast :=
    { id := db.nextId
      description := data.description
      value := data.value
      budget_id := data.budget_id
      category_id := data.category_id
      tags := data.tags
      recurrence_id := data.recurrence_id
      installment := data.installment }
  ({ db with forecasts := db.forecasts ++ [f], nextId := db.nextId + 1 }, f)

/-- `forecast_exists_for_recurrence(db, recurrence_id, budget_id)`: does any
forecast row carry this (recurrence_id, budget_id) pair. -/
def forecast_exists_for_recurrence (db : DB) (recurrence_id budget_id : Nat) : Bool :=
  db.forecasts.any (fun f =>
    f.recurrence_id == some recurrence_id && f.budget_id == budget_id)

/-! ## `bud/services/budgets.py` -/

/-- `(year % 4 == 0 and year % 100 != 0) or year % 400 == 0`
(Gregorian rule used by `calendar.monthrange`). -/
def leapYear (y : Nat) : Bool := (y % 4 == 0 && y % 100 != 0) || y % 400 == 0

/-- `calendar.monthrange(year, month)[1]`: last day of the month. -/
def monthLastDay (y m : Nat) : Nat :=
  if m == 2 then (if leapYear y then 29 else 28)
  else if m == 4 || m == 6 || m == 9 || m == 11 then 30
  else 31

/-- `_parse_month_dates(name)`: parse YYYY-MM into first and last day. -/
def _parse_month_dates (name : String) : Option (Dte × Dte) :=
  (parseMonth name).map fun p =>
    (⟨p.1, p.2, 1⟩, ⟨p.1, p.2, monthLastDay p.1 p.2⟩)

/-- The body of the `for rec in recurrences` loop of
`_populate_recurrent_forecasts` (lines 68-94), run against the
current-generation `Recurrence` model: skip a recurrence when a forecast for
(rec.id, budget.id) already exists; otherwise the very next statement,
`orig = rec.original_forecast`, reads an attribute the model no longer
defines (dropped by the `migrate-recurrences` migration), so the call raises
`AttributeError` before creating anything.  Forecast inserts committed by
earlier loop iterations would persist, which is why the state is returned
alongside the outcome. -/
def populateLoop (db : DB) (budget : Budget) : List Recurrence → DB × Except String Unit
  | [] => (db, .ok ())
  | r :: rest =>
    if forecast_exists_for_recurrence db r.id budget.id then
      populateLoop db budget rest
    else
      (db, .error "AttributeError: original_forecast")

/-- `_populate_recurrent_forecasts(db, budget)` as written in
`bud/services/budgets.py` (lines 62-94). -/
def _populate_recurrent_forecasts (db : DB) (budget : Budget) : DB × Except String Unit :=
  match get_recurrences_for_month db budget.project_id budget.name with
  | .error e => (db, .error e)
  | .ok recs => populateLoop db budget recs

/-- Modelled from the spec: the loop body of `_populate_recurrent_forecasts`
with the template-copy step restored per spec §4.3 ("create a Forecast
copying description/value/category/tags from the Recurrence, setting
`recurrence_id` and, when the recurrence is installment-based,
`installment = installmentNumber(recurrence, budget.name)`").  The code in
the tree instead reads the dropped `rec.original_forecast` attribute (see
`populateLoop`); the repository's own tests (`tests/test_recurrences.py`)
exercise the copying behaviour, whose working source is missing from the
tree.  The dedup check and the installment computation are taken verbatim
from `bud/services/budgets.py`. -/
def populateSpecLoop (db : DB) (budget : Budget) : List Recurrence → DB × Except String Unit
  | [] => (db, .ok ())
  | r :: rest =>
    if forecast_exists_for_recurrence db r.id budget.id then
      populateSpecLoop db budget rest
    else
      let instRes : Except String (Option Int) :=
        if intTruthy r.installments then
          match get_installment_number r budget.name with
          | none => .error "InvalidMonthToken"
          | some k => .ok (some k)
        else .ok none
      match instRes with
      | .error e => (db, .error e)
      | .ok inst =>
        let db' := (create_forecast db
          { description := r.base_description
            value := r.value
            budget_id := budget.id
            category_id := r.category_id
            tags := r.tags
            recurrence_id := some r.id
            installment := inst }).1
        populateSpecLoop db' budget rest

/-- Modelled from the spec: `_populate_recurrent_forecasts` with the
template-copy step of `populateSpecLoop`. -/
def materialize (db : DB) (budget : Budget) : DB × Except String Unit :=
  match get_recurrences_for_month db budget.project_id budget.name with
  | .error e => (db, .error e)
  | .ok recs => populateSpecLoop db budget recs

/-- `create_budget(db, data)`: parse the month token into the date range,
insert the budget row (committed), then populate recurrent forecasts.  A
populate failure propagates but the committed budget row remains. -/
def create_budget (db : DB) (name : String) (project_id : Nat) :
    DB × Except String Budget :=
  match _parse_month_dates name with
  | none => (db, .error "InvalidMonthToken")
  | some (s, e) =>
    let b : Budget := ⟨db.nextId, name, s, e, project_id⟩
    let db1 := { db with budgets := db.budgets ++ [b], nextId := db.nextId + 1 }
    let res := _populate_recurrent_forecasts db1 b
    (res.1, res.2.map fun _ => b)

/-- `get_budget_by_name(db, project_id, name)`. -/
def get_budget_by_name (db : DB) (project_id : Nat) (name : String) : Option Budget :=
  db.budgets.find? (fun b => b.project_id == project_id && b.name == name)

/-! ## `bud/services/reports.py` -/

/-- Sum of `Decimal(str(t.value))` over a transaction list. -/
def sumVals (ts : List LedgerTxn) : Int := (ts.map (·.value)).sum

/-- `bud/schemas/report.py` `AccountBalance`. -/
structure AccountBalance where
  account_id : Nat
  account_name : String
  balance : Int
  calculated_balance : Int
  current_balance : Int
  difference : Int
deriving Repr, DecidableEq

/-- `bud/schemas/report.py` `ForecastActual`. -/
structure ForecastActual where
  forecast_id : Nat
  description : Option String
  forecast_value : Int
  actual_value : Int
  difference : Int
  category_id : Option Nat
  category_name : Option String
  tags : List String
  installment : Option Int
  total_installments : Option Int
deriving Repr, DecidableEq

/-- `bud/schemas/report.py` `ReportRead` (the fields the engine computes). -/
structure ReportRead where
  budget_id : Nat
  budget_name : String
  start_date : Dte
  end_date : Dte
  account_balances : List AccountBalance
  total_balance : Int
  total_earnings : Int
  total_expenses : Int
  forecasts : List ForecastActual
  is_projected : Bool
  projected_net_balance : Option Int
  accumulated_remaining : Option Int
deriving Repr, DecidableEq

/-- The three `continue` guards of the forecast-actual loop
(`generate_report` lines 108-113, duplicated verbatim in
`_calculate_accumulated_remaining` lines 214-219), conjoined: a transaction
is counted unless a truthy criterion rejects it. -/
def txnMatches (f : Forecast) (t : LedgerTxn) : Bool :=
  !(f.category_id.isSome && (t.category_id != f.category_id)) &&
  !(strTruthy f.description && !containsCI (f.description.getD "") t.description) &&
  !(!f.tags.isEmpty && !(f.tags.all (fun tag => t.tags.contains tag)))

/-- `has_criteria = forecast.description or forecast.category_id or
forecast.tags` (Python truthiness). -/
def forecastHasCriteria (f : Forecast) : Bool :=
  strTruthy f.description || f.category_id.isSome || !f.tags.isEmpty

/-- The actual-value computation of `generate_report` (lines 104-116): zero
when no criterion is truthy, otherwise the running sum of values of
transactions that survive all three guards. -/
def actualValue (f : Forecast) (ts : List LedgerTxn) : Int :=
  if forecastHasCriteria f then
    ts.foldl (fun acc t => if txnMatches f t then acc + t.value else acc) 0
  else 0

/-- `t.date >= b.start_date and t.date <= b.end_date`. -/
def txnInRange (b : Budget) (t : LedgerTxn) : Bool :=
  dateLeB b.start_date t.date && dateLeB t.date b.end_date

/-- `select(Budget).where(project_id == ...).order_by(Budget.name)`:
the project's budgets sorted by month token. -/
def budgetsByName (db : DB) (project_id : Nat) : List Budget :=
  (db.budgets.filter (fun b => b.project_id == project_id)).mergeSort
    (fun a b => strLeB a.name b.name)

/-- `b.start_date > today or (b.start_date <= today <= b.end_date)`:
the visited budget is current or future. -/
def currentOrFutureB (b : Budget) (today : Dte) : Bool :=
  dateLtB today b.start_date || (dateLeB b.start_date today && dateLeB today b.end_date)

/-- One visited budget's contribution to `accumulated_remaining`
(lines 188-224): its forecasts' `forecast - actual` over its own
date-range transactions. -/
def accumContribution (db : DB) (target : Budget) (b : Budget) : Int :=
  let budget_txns := db.transactions.filter (fun t =>
    t.project_id == target.project_id && txnInRange b t)
  ((db.forecasts.filter (fun f => f.budget_id == b.id)).map
    (fun f => f.value - actualValue f budget_txns)).sum

/-- The `for b in all_budgets` walk of `_calculate_accumulated_remaining`
(lines 183-224): skip past budgets, `break` at the first current-or-future
budget named after the target, accumulate contributions otherwise. -/
def accumLoop (db : DB) (target : Budget) (today : Dte) : List Budget → Int
  | [] => 0
  | b :: rest =>
    if currentOrFutureB b today then
      if strLtB target.name b.name then 0
      else accumContribution db target b + accumLoop db target today rest
    else accumLoop db target today rest

/-- `_calculate_accumulated_remaining(db, target_budget, today)`. -/
def _calculate_accumulated_remaining (db : DB) (target : Budget) (today : Dte) : Int :=
  accumLoop db target today (budgetsByName db target.project_id)

/-- The `for b in all_budgets` walk of `_calculate_projected_net_balance`
(lines 246-258): same visit rule, accumulating raw forecast values. -/
def projLoop (db : DB) (target : Budget) (today : Dte) : List Budget → Int
  | [] => 0
  | b :: rest =>
    if currentOrFutureB b today then
      if strLtB target.name b.name then 0
      else ((db.forecasts.filter (fun f => f.budget_id == b.id)).map (·.value)).sum
        + projLoop db target today rest
    else projLoop db target today rest

/-- `_calculate_projected_net_balance(db, target_budget, today)`. -/
def _calculate_projected_net_balance (db : DB) (target : Budget) (today : Dte) : Int :=
  projLoop db target today (budgetsByName db target.project_id)

/-- `generate_report(db, budget_id)` with `date.today()` made an explicit
`today` argument.  Fails with `BudgetNotFound` when the id resolves to no
budget. -/
def generate_report (db : DB) (budget_id : Nat) (today : Dte) :
    Except String ReportRead :=
  match db.budgets.find? (fun b => b.id == budget_id) with
  | none => .error "Budget not found"
  | some budget =>
    let is_projected := dateLtB today budget.end_date
    let accounts := db.accounts.filter (fun a =>
      db.project_accounts.contains (budget.project_id, a.id))
    let transactions := db.transactions.filter (fun t =>
      t.project_id == budget.project_id && txnInRange budget t)
    let cumulative_transactions := db.transactions.filter (fun t =>
      t.project_id == budget.project_id && dateLeB t.date budget.end_date)
    let account_balances := accounts.map (fun a =>
      let net := sumVals (transactions.filter (fun t => t.account_id == a.id))
      let initial := if a.initial_balance ≠ 0 then a.initial_balance else 0
      let cumulative_net :=
        sumVals (cumulative_transactions.filter (fun t => t.account_id == a.id))
      let calculated_balance := initial + cumulative_net
      let current_bal := if a.current_balance ≠ 0 then a.current_balance else 0
      AccountBalance.mk a.id a.name net calculated_balance current_bal
        (calculated_balance - current_bal))
    let total_balance := (account_balances.map (·.balance)).sum
    let total_earnings := sumVals (transactions.filter (fun t => 0 < t.value))
    let total_expenses :=
      ((transactions.filter (fun t => ¬ 0 < t.value)).map (fun t => |t.value|)).sum
    let forecasts := db.forecasts.filter (fun f => f.budget_id == budget_id)
    let forecast_actuals := forecasts.map (fun f =>
      let actual := actualValue f transactions
      let recurrence := f.recurrence_id.bind (fun rid =>
        db.recurrences.find? (fun r => r.id == rid))
      let total_installments :=
        match recurrence with
        | some r => if intTruthy r.installments then r.installments else none
        | none => none
      let desc :=
        match recurrence with
        | some r => if strTruthy r.base_description then r.base_description else f.description
        | none => f.description
      ForecastActual.mk f.id desc f.value actual (f.value - actual) f.category_id
        (f.category_id.bind (fun c => (db.categories.find? (fun p => p.1 == c)).map (·.2)))
        f.tags f.installment total_installments)
    let projected_net_balance :=
      if is_projected then some (_calculate_projected_net_balance db budget today)
      else none
    let accumulated_remaining :=
      if is_projected then some (_calculate_accumulated_remaining db budget today)
      else none
    .ok (ReportRead.mk budget.id budget.name budget.start_date budget.end_date
      account_balances total_balance total_earnings total_expenses
      forecast_actuals is_projected projected_net_balance accumulated_remaining)

/-! ## `bud/services/transactions.py` (double-entry generation)

The transactions service in the tree is the double-entry rewrite: every
created transaction is persisted together with a mirrored counterpart row.
Its model (`bud/models/transaction.py`) has `source_account_id` /
`destination_account_id` / `is_counterpart` / `counterpart_id` and no single
`account_id`.  Embedded in its own namespace because it runs against a
different transaction shape than the report engine. -/

namespace Txs

/-- `bud/models/transaction.py`. -/
structure Transaction where
  id : Nat
  value : Int
  description : String
  date : Dte
  tags : List String
  is_counterpart : Bool
  source_account_id : Nat
  destination_account_id : Nat
  category_id : Option Nat
  project_id : Nat
  counterpart_id : Option Nat
deriving Repr, DecidableEq

/-- `bud/schemas/transaction.py` `TransactionCreate`. -/
structure TransactionCreate where
  value : Int
  description : String
  date : Dte
  source_account_id : Nat
  destination_account_id : Nat
  project_id : Nat
  category_id : Option Nat
  tags : List String
deriving Repr, DecidableEq

/-- `bud/schemas/transaction.py` `TransactionUpdate`
(`model_dump(exclude_none=True)`: a `none` field is not applied). -/
structure TransactionUpdate where
  value : Option Int := none
  description : Option String := none
  date : Option Dte := none
  source_account_id : Option Nat := none
  destination_account_id : Option Nat := none
  category_id : Option (Option Nat) := none
  tags : Option (List String) := none
deriving Repr, DecidableEq

/-- The store this service runs against: the transaction table, the account
table (balances per the spec's `Account` shape — the service never touches
them), and the freshness counter. -/
structure TxDB where
  transactions : List Transaction
  accounts : List Account
  nextId : Nat
deriving Repr, DecidableEq

/-- `get_transaction(db, transaction_id)`. -/
def get_transaction (db : TxDB) (transaction_id : Nat) : Option Transaction :=
  db.transactions.find? (fun t => t.id == transaction_id)

/-- `create_transaction(db, data)` (lines 57-91): insert the primary row,
flush (assigning its id), insert the mirrored counterpart (negated value,
source and destination swapped, `is_counterpart=True`, `counterpart_id`
pointing back), then point the primary row at the counterpart and commit. -/
def create_transaction (db : TxDB) (data : TransactionCreate) : TxDB × Transaction :=
  let txn : Transaction :=
    { id := db.nextId
      value := data.value
      description := data.description
      date := data.date
      tags := data.tags
      is_counterpart := false
      source_account_id := data.source_account_id
      destination_account_id := data.destination_account_id
      category_id := data.category_id
      project_id := data.project_id
      counterpart_id := none }
  let counterpart : Transaction :=
    { id := db.nextId + 1
      value := -data.value
      description := data.description
      date := data.date
      tags := data.tags
      is_counterpart := true
      source_account_id := data.destination_account_id
      destination_account_id := data.source_account_id
      category_id := data.category_id
      project_id := data.project_id
      counterpart_id := some txn.id }
  let txn' := { txn with counterpart_id := some counterpart.id }
  ({ db with
      transactions := db.transactions ++ [txn', counterpart]
      nextId := db.nextId + 2 },
    txn')

/-- `setattr(txn, field, value)` for every field present in
`data.model_dump(exclude_none=True)`. -/
def applyUpdate (t : Transaction) (d : TransactionUpdate) : Transaction :=
  { t with
    value := d.value.getD t.value
    description := d.description.getD t.description
    date := d.date.getD t.date
    source_account_id := d.source_account_id.getD t.source_account_id
    destination_account_id := d.destination_account_id.getD t.destination_account_id
    category_id := d.category_id.getD t.category_id
    tags := d.tags.getD t.tags }

/-- The counterpart-sync block of `update_transaction` (lines 106-122):
mirror each supplied field onto the counterpart, negating `value` and
swapping the two account references. -/
def applyMirror (c : Transaction) (d : TransactionUpdate) : Transaction :=
  { c with
    value := (d.value.map (fun v => -v)).getD c.value
    description := d.description.getD c.description
    date := d.date.getD c.date
    category_id := d.category_id.getD c.category_id
    tags := d.tags.getD c.tags
    destination_account_id := d.source_account_id.getD c.destination_account_id
    source_account_id := d.destination_account_id.getD c.source_account_id }

/-- Replace the row with the given id. -/
def replaceRow (rows : List Transaction) (id : Nat) (t' : Transaction) :
    List Transaction :=
  rows.map (fun x => if x.id == id then t' else x)

/-- `update_transaction(db, transaction_id, data)` (lines 94-126): `None`
when the row is absent or is a counterpart; otherwise apply the edit, sync
the counterpart when one is linked, commit. -/
def update_transaction (db : TxDB) (transaction_id : Nat) (data : TransactionUpdate) :
    TxDB × Option Transaction :=
  match get_transaction db transaction_id with
  | none => (db, none)
  | some txn =>
    if txn.is_counterpart then (db, none)
    else
      let txn' := applyUpdate txn data
      let rows1 := replaceRow db.transactions txn.id txn'
      let rows2 :=
        match txn'.counterpart_id with
        | none => rows1
        | some cid =>
          match rows1.find? (fun t => t.id == cid) with
          | none => rows1
          | some c => replaceRow rows1 cid (applyMirror c data)
      ({ db with transactions := rows2 }, some txn')

/-- `delete_transaction(db, transaction_id)` (lines 129-145): `False` when
the row is absent or is a counterpart; otherwise unlink, delete the
counterpart row if present, delete the primary row, commit. -/
def delete_transaction (db : TxDB) (transaction_id : Nat) : TxDB × Bool :=
  match get_transaction db transaction_id with
  | none => (db, false)
  | some txn =>
    if txn.is_counterpart then (db, false)
    else
      let rows1 : List Transaction :=
        match txn.counterpart_id with
        | none => db.transactions
        | some cid =>
          let unlinked : List Transaction :=
            replaceRow db.transactions txn.id { txn with counterpart_id := none }
          match unlinked.find? (fun t => t.id == cid) with
          | none => unlinked
          | some _ => unlinked.filter (fun t => !(t.id == cid))
      ({ db with transactions := rows1.filter (fun t => !(t.id == txn.id)) }, true)

end Txs

/-! ## `bud/commands/forecasts.py` — the `forecast create` validation prefix -/

/-- The outcomes of the `create_forecast` command prefix (lines 139-169):
each early `click.echo(..., err=True); return`, the propagated exception of
a failed budget auto-creation, the declined category-creation prompt, or
the go-ahead for the creation body. -/
inductive PrefixOutcome
  | errMissingCriteria
  | errProjectRequired
  | raised (e : String)
  | categoryDeclined
  | errRequiresInstallments
  | errInstallmentRange
  | proceed (budget_id : Nat) (category_id : Option Nat)
deriving Repr, DecidableEq

/-- The tail of the `forecast create` prefix, after budget resolution
(lines 149-169): category resolution — which may create a category when the
interactive prompt is confirmed — followed by the two `current_installment`
validations and the go-ahead. -/
def createForecastCatAndValidate (db1 : DB) (bid : Nat) (category : Option String)
    (confirmCreateCategory : Bool) (installments current_installment : Option Int) :
    DB × PrefixOutcome :=
  let catRes : DB × Except PrefixOutcome (Option Nat) :=
    match category with
    | none => (db1, .ok none)
    | some cname =>
      match db1.categories.find? (fun p => p.2 == cname) with
      | some p => (db1, .ok (some p.1))
      | none =>
        if confirmCreateCategory then
          ({ db1 with
              categories := db1.categories ++ [(db1.nextId, cname)]
              nextId := db1.nextId + 1 },
            .ok (some db1.nextId))
        else (db1, .error .categoryDeclined)
  match catRes with
  | (db2, .error o) => (db2, o)
  | (db2, .ok cat) =>
    let _budget_obj := db2.budgets.find? (fun b => b.id == bid)
    if current_installment.isSome ∧ ¬ intTruthy installments then
      (db2, .errRequiresInstallments)
    else if (match current_installment with
        | some k => decide (k < 1) || decide (installments.getD 0 < k)
        | none => false) then
      (db2, .errInstallmentRange)
    else (db2, .proceed bid cat)

/-- The prefix of the `forecast create` command that runs before any
forecast or recurrence is created (lines 139-169), with the ambient
configuration made explicit per spec §9: `activeMonth` is `require_month()`,
`projectArg` the already-resolved `resolve_project_id` outcome,
`budgetArg` either a raw UUID (`Sum.inl`) or a month name (`Sum.inr`),
`category` the category CLI string, and `confirmCreateCategory` the answer
to the interactive category-creation prompt.  Steps, in source order:
the at-least-one-criterion check, `_resolve_or_create_budget_id` (which
looks the month's budget up and otherwise auto-creates it via
`create_budget`, committing it and its materialized forecasts), category
resolution (which may create a category), then the two
`current_installment` validations. -/
def create_forecast_check (db : DB) (activeMonth : String)
    (budgetArg : Option (Nat ⊕ String)) (description : Option String)
    (category : Option String) (confirmCreateCategory : Bool)
    (tags : List String) (installments : Option Int)
    (current_installment : Option Int) (projectArg : Option Nat) :
    DB × PrefixOutcome :=
  if ¬ strTruthy description ∧ category = none ∧ tags = [] then
    (db, .errMissingCriteria)
  else
    let resolveRes : DB × Except PrefixOutcome Nat :=
      match budgetArg with
      | some (.inl uuid) => (db, .ok uuid)
      | _ =>
        match projectArg with
        | none => (db, .error .errProjectRequired)
        | some pid =>
          let month := match budgetArg with
            | some (.inr m) => m
            | _ => activeMonth
          match get_budget_by_name db pid month with
          | some b => (db, .ok b.id)
          | none =>
            match create_budget db month pid with
            | (db', .ok b) => (db', .ok b.id)
            | (db', .error e) => (db', .error (.raised e))
    match resolveRes with
    | (db1, .error o) => (db1, o)
    | (db1, .ok bid) =>
      createForecastCatAndValidate db1 bid category confirmCreateCategory
        installments current_installment

/-! ## Claim-side specification definitions

Definitions in this section transcribe the CLAIMS' (and spec's) wording, to
be compared against the embedded code. -/

/-- The (recurrence_id, budget_id) identity of a recurrence-generated
forecast; `none` for ad-hoc forecasts. -/
def pairKey (f : Forecast) : Option (Nat × Nat) :=
  f.recurrence_id.map (fun r => (r, f.budget_id))

/-- Spec invariant: at most one forecast exists per (recurrence_id,
budget_id) pair. -/
def uniquePairs : List Forecast → Bool
  | [] => true
  | f :: rest =>
    (match pairKey f with
     | none => true
     | some k => !(rest.any (fun g => pairKey g == some k))) && uniquePairs rest

/-- C2's applicability formula read literally: an installment recurrence
(`installments = N` set) applies iff `S <= m <= offset(S, N-1)`; otherwise
applies iff `S <= m` and (`end` unset or `m <= end`). -/
def appliesClaim (r : Recurrence) (m : String) : Bool :=
  match r.installments with
  | some n =>
    strLeB r.start m &&
      (match _month_offset r.start (n - 1) with
       | some last => strLeB m last
       | none => false)
  | none =>
    strLeB r.start m &&
      (match r.«end» with
       | none => true
       | some e => strLeB m e)

/-- C2's applicability formula amended for Python truthiness: an
installment count of `0` (like `None`) selects the open branch, matching
`if r.installments:` in the source. -/
def appliesAmended (r : Recurrence) (m : String) : Bool :=
  if intTruthy r.installments then
    strLeB r.start m &&
      (match _month_offset r.start (r.installments.getD 0 - 1) with
       | some last => strLeB m last
       | none => false)
  else
    strLeB r.start m &&
      (match r.«end» with
       | none => true
       | some e => strLeB m e)

/-- C4's matching rule read literally: category equality when
`category_id` is set, case-insensitive substring containment when
`description` is set (including the empty string), tag-subset containment
when `tags` is non-empty. -/
def matchesClaim (f : Forecast) (t : LedgerTxn) : Bool :=
  (match f.category_id with
   | some c => t.category_id == some c
   | none => true) &&
  (match f.description with
   | some d => containsCI d t.description
   | none => true) &&
  (f.tags.isEmpty || f.tags.all (fun tag => t.tags.contains tag))

/-- C4's "no criteria at all" read literally: all three fields unset/empty. -/
def hasCriteriaClaim (f : Forecast) : Bool :=
  f.description.isSome || f.category_id.isSome || !f.tags.isEmpty

/-- C4's matching rule amended for Python truthiness: a `Some ""`
description (falsy in the source) declares no description criterion. -/
def matchesAmended (f : Forecast) (t : LedgerTxn) : Bool :=
  (match f.category_id with
   | some c => t.category_id == some c
   | none => true) &&
  (!(strTruthy f.description) || containsCI (f.description.getD "") t.description) &&
  (f.tags.isEmpty || f.tags.all (fun tag => t.tags.contains tag))

/-- C6's per-account month net: the sum of the account's transaction values
within the report's scope (`[budget.start_date, budget.end_date]`, the
budget's project). -/
def netSpec (db : DB) (b : Budget) (a : Account) : Int :=
  ((db.transactions.filter (fun t =>
      t.project_id == b.project_id && txnInRange b t && t.account_id == a.id)).map
    (·.value)).sum

/-- C6's cumulative net: the sum of the account's transaction values with
`date <= budget.end_date`, from account inception. -/
def cumulativeSpec (db : DB) (b : Budget) (a : Account) : Int :=
  ((db.transactions.filter (fun t =>
      t.project_id == b.project_id && dateLeB t.date b.end_date &&
        t.account_id == a.id)).map
    (·.value)).sum

/-- C5's visited-budget set: the project's budgets that are current or
future and named no later than the target budget. -/
def visitedBudgets (db : DB) (target : Budget) (today : Dte) : List Budget :=
  db.budgets.filter (fun c =>
    c.project_id == target.project_id && currentOrFutureB c today &&
      strLeB c.name target.name)

/-- C5's accumulated remaining: over the visited budgets, the sum of
(forecast value - actual) for each forecast, with actual computed by the
matching rule against that visited budget's own date-range transactions
(`accumContribution`). -/
def accumSpec (db : DB) (target : Budget) (today : Dte) : Int :=
  ((visitedBudgets db target today).map (accumContribution db target)).sum

/-- C5's projected net balance: the sum of raw forecast values over the
same visited budgets. -/
def projSpec (db : DB) (target : Budget) (today : Dte) : Int :=
  ((visitedBudgets db target today).map (fun c =>
    ((db.forecasts.filter (fun f => f.budget_id == c.id)).map (·.value)).sum)).sum

/-- The month name `_resolve_or_create_budget_id` resolves: the month-name
argument when one was given, else the configured active month. -/
def resolvedMonth (budgetArg : Option (Nat ⊕ String)) (activeMonth : String) : String :=
  match budgetArg with
  | some (.inr m) => m
  | _ => activeMonth

/-- The transaction table a successful counterpart-linked
`update_transaction` commits: the primary row replaced by the edit, then
the counterpart row replaced by its mirror. -/
def TxsResultDb (db : Txs.TxDB) (cid : Nat) (t c : Txs.Transaction)
    (upd : Txs.TransactionUpdate) : Txs.TxDB :=
  let rows1 := Txs.replaceRow db.transactions t.id (Txs.applyUpdate t upd)
  { db with transactions := Txs.replaceRow rows1 cid (Txs.applyMirror c upd) }

/-- The second phase of `get_recurrences_for_month`'s two-phase filter: the
per-item branch check of the `for r in recurrences` loop, given the range
filter `start <= month` already passed. -/
def recTailCheck (m : String) (r : Recurrence) : Bool :=
  match r.installments with
  | some n =>
    if n ≠ 0 then
      match _month_offset r.start (n - 1) with
      | some last => strLeB m last
      | none => false
    else
      match r.«end» with
      | none => true
      | some e => strLeB m e
  | none =>
    match r.«end» with
    | none => true
    | some e => strLeB m e

/-! ## Concrete sample states used by the witnesses and counterexamples -/

/-- A sample ledger: one account with stored `current_balance = 0`. -/
def c7Account : Account := { id := 1, name := "Checking", initial_balance := 0, current_balance := 0 }

/-- A sample store for C7. -/
def c7Db : Txs.TxDB := { transactions := [], accounts := [c7Account], nextId := 10 }

/-- A `-50` expense posted between the sample account and itself. -/
def c7Create : Txs.TransactionCreate :=
  { value := -50, description := "Groceries", date := ⟨2025, 1, 15⟩
    source_account_id := 1, destination_account_id := 1, project_id := 1
    category_id := none, tags := [] }

/-- An open recurrence applicable to 2025-01. -/
def c3Rec : Recurrence :=
  { id := 1, start := "2025-01", «end» := none, installments := none
    base_description := some "Rent", value := -100, category_id := none
    tags := [], project_id := 1 }

/-- A budget for 2025-01 in the same project. -/
def c3Budget : Budget :=
  { id := 10, name := "2025-01", start_date := ⟨2025, 1, 1⟩
    end_date := ⟨2025, 1, 31⟩, project_id := 1 }

/-- A store holding the recurrence and budget and no forecasts. -/
def c3Db : DB :=
  { budgets := [c3Budget], forecasts := [], recurrences := [c3Rec]
    transactions := [], accounts := [], project_accounts := []
    categories := [], nextId := 100 }

/-- Sample primary row of a created pair. -/
def c10Prim : Txs.Transaction :=
  { id := 0, value := 7, description := "transfer", date := ⟨2025, 1, 2⟩
    tags := [], is_counterpart := false, source_account_id := 1
    destination_account_id := 2, category_id := none, project_id := 1
    counterpart_id := some 1 }

/-- Sample counterpart row of the pair. -/
def c10Cp : Txs.Transaction :=
  { id := 1, value := -7, description := "transfer", date := ⟨2025, 1, 2⟩
    tags := [], is_counterpart := true, source_account_id := 2
    destination_account_id := 1, category_id := none, project_id := 1
    counterpart_id := some 0 }

/-- Sample store holding the pair. -/
def c10Db : Txs.TxDB := { transactions := [c10Prim, c10Cp], accounts := [], nextId := 2 }

/-- Sample edit: set the value to 9. -/
def c10Upd : Txs.TransactionUpdate := { value := some 9 }

/-- Sample state for the C1 witness: one open recurrence applicable to the
sample budget's month, no forecasts yet. -/
def c1Rec : Recurrence :=
  { id := 1, start := "2025-01", «end» := none, installments := none
    base_description := some "Rent", value := -100, category_id := none
    tags := [], project_id := 1 }

/-- Sample budget for the C1 witness. -/
def c1Budget : Budget :=
  { id := 10, name := "2025-03", start_date := ⟨2025, 3, 1⟩
    end_date := ⟨2025, 3, 31⟩, project_id := 1 }

/-- Sample store for the C1 witness. -/
def c1Db : DB :=
  { budgets := [c1Budget], forecasts := [], recurrences := [c1Rec]
    transactions := [], accounts := [], project_accounts := []
    categories := [], nextId := 100 }

/-- A forecast whose only set field is the empty-string description. -/
def c4F : Forecast :=
  { id := 1, description := some "", value := 0, budget_id := 1
    category_id := none, tags := [], recurrence_id := none, installment := none }

/-- A transaction worth 5. -/
def c4T : LedgerTxn :=
  { id := 2, value := 5, description := "anything", date := ⟨2025, 1, 5⟩
    account_id := 1, category_id := none, tags := [], project_id := 1 }

/-- An empty store: a project exists implicitly (id 1) but no budgets. -/
def c8Db : DB :=
  { budgets := [], forecasts := [], recurrences := [], transactions := []
    accounts := [], project_accounts := [], categories := [], nextId := 50 }

/-- The open recurrence with a zero installment count. -/
def c2Rec : Recurrence :=
  { id := 1, start := "2025-01", «end» := none, installments := some 0
    base_description := some "Zero", value := -10, category_id := none
    tags := [], project_id := 1 }

/-- Store holding only `c2Rec`. -/
def c2Db : DB :=
  { budgets := [], forecasts := [], recurrences := [c2Rec]
    transactions := [], accounts := [], project_accounts := []
    categories := [], nextId := 100 }

/-- Sample budget for the C6 witness. -/
def c6Budget : Budget :=
  { id := 10, name := "2025-01", start_date := ⟨2025, 1, 1⟩
    end_date := ⟨2025, 1, 31⟩, project_id := 1 }

/-- Sample account: initial balance 10, stored current balance 3. -/
def c6Acct : Account := { id := 1, name := "A", initial_balance := 10, current_balance := 3 }

/-- Sample store: one in-month transaction (+5) and one earlier one (+7). -/
def c6Db : DB :=
  { budgets := [c6Budget], forecasts := [], recurrences := []
    transactions :=
      [ { id := 100, value := 5, description := "lunch", date := ⟨2025, 1, 15⟩
          account_id := 1, category_id := none, tags := [], project_id := 1 }
      , { id := 101, value := 7, description := "gift", date := ⟨2024, 12, 10⟩
          account_id := 1, category_id := none, tags := [], project_id := 1 } ]
    accounts := [c6Acct], project_accounts := [(1, 1)]
    categories := [], nextId := 200 }

/-- The report the sample store yields on 2025-06-01 (past budget: not
projected): net 5, calculated 10 + 12 = 22, difference 22 - 3 = 19. -/
def c6Report : ReportRead :=
  { budget_id := 10, budget_name := "2025-01", start_date := ⟨2025, 1, 1⟩
    end_date := ⟨2025, 1, 31⟩
    account_balances := [⟨1, "A", 5, 22, 3, 19⟩]
    total_balance := 5, total_earnings := 5, total_expenses := 0
    forecasts := [], is_projected := false
    projected_net_balance := none, accumulated_remaining := none }

/-- Target budget for the C5 witness: a far-future month. -/
def c5Budget : Budget :=
  { id := 10, name := "2099-01", start_date := ⟨2099, 1, 1⟩
    end_date := ⟨2099, 1, 31⟩, project_id := 1 }

/-- The C5 witness store: the future budget holds a -50 rent forecast, and
one -20 transaction in its range matches it. -/
def c5Db : DB :=
  { budgets := [c5Budget]
    forecasts :=
      [ { id := 20, description := some "Rent", value := -50, budget_id := 10
          category_id := none, tags := [], recurrence_id := none
          installment := none } ]
    recurrences := []
    transactions :=
      [ { id := 100, value := -20, description := "rent january"
          date := ⟨2099, 1, 10⟩, account_id := 1, category_id := none
          tags := [], project_id := 1 } ]
    accounts := [], project_accounts := [], categories := [], nextId := 200 }

/-- Reference date for the C5 witness. -/
def c5Today : Dte := ⟨2025, 1, 1⟩

/-- The report the C5 witness store yields: projected, with
`accumulated_remaining = -50 - (-20) = -30` and
`projected_net_balance = -50`. -/
def c5Report : ReportRead :=
  { budget_id := 10, budget_name := "2099-01", start_date := ⟨2099, 1, 1⟩
    end_date := ⟨2099, 1, 31⟩
    account_balances := []
    total_balance := 0, total_earnings := 0, total_expenses := 20
    forecasts :=
      [ { forecast_id := 20, description := some "Rent", forecast_value := -50
          actual_value := -20, difference := -30, category_id := none
          category_name := none, tags := [], installment := none
          total_installments := none } ]
    is_projected := true
    projected_net_balance := some (-50), accumulated_remaining := some (-30) }

/-! # Theorems

Helper lemmas first, then one theorem (plus witness or counterexample)
per specification claim. -/

/-! Linear-order facts about `listLtB`, needed to sort budget lists by name
and to relate string comparison to numeric month comparison. -/

theorem listLtB_irrefl (l : List Char) : listLtB l l = false := by
  induction l with
  | nil => rfl
  | cons a t ih => simp [listLtB, ih]

theorem listLtB_asymm (l₁ l₂ : List Char) (h : listLtB l₁ l₂ = true) :
    listLtB l₂ l₁ = false := by
  induction l₁ generalizing l₂ with
  | nil => cases l₂ <;> simp [listLtB]
  | cons a t ih =>
    cases l₂ with
    | nil => simp [listLtB] at h
    | cons b s =>
      simp only [listLtB] at h ⊢
      rcases lt_trichotomy a b with hab | hab | hab
      · simp [hab, not_lt_of_lt hab]
      · subst hab
        simp only [lt_irrefl, if_false] at h ⊢
        exact ih s h
      · simp [hab, not_lt_of_lt hab] at h

theorem listLtB_total (l₁ l₂ : List Char) (h₁ : listLtB l₁ l₂ = false)
    (h₂ : listLtB l₂ l₁ = false) : l₁ = l₂ := by
  induction l₁ generalizing l₂ with
  | nil => cases l₂ <;> simp_all [listLtB]
  | cons a t ih =>
    cases l₂ with
    | nil => simp [listLtB] at h₂
    | cons b s =>
      simp only [listLtB] at h₁ h₂
      rcases lt_trichotomy a b with hab | hab | hab
      · simp [hab] at h₁
      · subst hab
        simp only [lt_irrefl, if_false] at h₁ h₂
        rw [ih s h₁ h₂]
      · simp [hab] at h₂

theorem listLtB_trans (l₁ l₂ l₃ : List Char) (h₁ : listLtB l₁ l₂ = true)
    (h₂ : listLtB l₂ l₃ = true) : listLtB l₁ l₃ = true := by
  induction l₁ generalizing l₂ l₃ with
  | nil =>
    cases l₂ with
    | nil => simp [listLtB] at h₁
    | cons b s => cases l₃ with
      | nil => simp [listLtB] at h₂
      | cons c u => simp [listLtB]
  | cons a t ih =>
    cases l₂ with
    | nil => simp [listLtB] at h₁
    | cons b s =>
      cases l₃ with
      | nil => simp [listLtB] at h₂
      | cons c u =>
        simp only [listLtB] at h₁ h₂ ⊢
        rcases lt_trichotomy a b with hab | hab | hab
        · rcases lt_trichotomy b c with hbc | hbc | hbc
          · have : a < c := lt_trans hab hbc
            simp [this]
          · subst hbc; simp [hab]
          · simp [hbc, not_lt_of_lt hbc] at h₂
        · subst hab
          simp only [lt_irrefl, if_false] at h₁
          rcases lt_trichotomy a c with hac | hac | hac
          · simp [hac]
          · subst hac
            simp only [lt_irrefl, if_false] at h₂ ⊢
            exact ih s u h₁ h₂
          · simp [hac, not_lt_of_lt hac] at h₂
        · simp [hab, not_lt_of_lt hab] at h₁

theorem listLtB_false_trans (a b c : List Char) (h₁ : listLtB b a = false)
    (h₂ : listLtB c b = false) : listLtB c a = false := by
  by_contra h
  have hca : listLtB c a = true := by
    cases hx : listLtB c a
    · exact absurd hx h
    · rfl
  cases hab : listLtB a b with
  | false =>
    have : a = b := listLtB_total _ _ hab h₁
    subst this
    exact absurd hca (by simp [h₂])
  | true =>
    have hcb : listLtB c b = true := listLtB_trans _ _ _ hca hab
    exact absurd hcb (by simp [h₂])

theorem strLeB_trans (a b c : String) (h₁ : strLeB a b = true)
    (h₂ : strLeB b c = true) : strLeB a c = true := by
  simp only [strLeB, strLtB, Bool.not_eq_true'] at h₁ h₂ ⊢
  exact listLtB_false_trans _ _ _ h₁ h₂

theorem strLeB_total (a b : String) : (strLeB a b || strLeB b a) = true := by
  simp only [strLeB, strLtB, Bool.not_eq_true']
  cases hab : listLtB a.data b.data
  · simp
  · simp [listLtB_asymm _ _ hab]


/-! ## C7 — transaction balance side-effects -/

/-- C7: the claim says creating or deleting a Transaction applies the
corresponding balance side-effect to its owning Account within the same
transaction.  The double-entry service in `bud/services/transactions.py`
never touches any account row: for every store, payload and id,
`create_transaction`, `update_transaction` and `delete_transaction` leave
the accounts table — hence every `current_balance` — unchanged, and at the
concrete failing input (posting a `-50` expense against an account whose
stored balance is `0`) the stored balance stays `0` where the claim (and
the repository's own tests, `tests/test_transactions_service.py`
`test_create_transaction_decreases_balance_for_expense`) demand `-50`. -/
theorem create_delete_transaction_no_balance_effect :
    (∀ (db : Txs.TxDB) (data : Txs.TransactionCreate),
      (Txs.create_transaction db data).1.accounts = db.accounts) ∧
    (∀ (db : Txs.TxDB) (tid : Nat) (upd : Txs.TransactionUpdate),
      (Txs.update_transaction db tid upd).1.accounts = db.accounts) ∧
    (∀ (db : Txs.TxDB) (tid : Nat),
      (Txs.delete_transaction db tid).1.accounts = db.accounts) ∧
    ((Txs.create_transaction c7Db c7Create).1.accounts = [c7Account] ∧
      c7Account.current_balance = 0 ∧
      ((Txs.delete_transaction (Txs.create_transaction c7Db c7Create).1
          (Txs.create_transaction c7Db c7Create).2.id).1.accounts = [c7Account])) := by
  refine ⟨fun db data => rfl, fun db tid upd => ?_, fun db tid => ?_, ?_⟩
  · cases h : Txs.get_transaction db tid with
    | none => simp [Txs.update_transaction, h]
    | some txn =>
      by_cases hc : txn.is_counterpart <;> simp [Txs.update_transaction, h, hc]
  · cases h : Txs.get_transaction db tid with
    | none => simp [Txs.delete_transaction, h]
    | some txn =>
      by_cases hc : txn.is_counterpart <;> simp [Txs.delete_transaction, h, hc]
  · refine ⟨rfl, rfl, ?_⟩
    decide

/-! ## C3 — materialization's template copy -/

/-- C3: the claim says each forecast created by materialization copies
description/value/category/tags from the Recurrence template.  The code in
the tree instead reads `rec.original_forecast` — an attribute the
`Recurrence` model no longer defines (its backing column was dropped by the
repository's own `migrate-recurrences` migration) — so at the failing input
(a budget whose month one open recurrence applies to, no forecast yet)
`_populate_recurrent_forecasts` raises `AttributeError` and creates no
forecast at all, where the claim (and `tests/test_recurrences.py`) demand a
forecast copied from the template. -/
theorem populate_raises_attribute_error :
    _populate_recurrent_forecasts c3Db c3Budget =
      (c3Db, Except.error "AttributeError: original_forecast") ∧
    (_populate_recurrent_forecasts c3Db c3Budget).1.forecasts = [] := by
  constructor
  · rfl
  · decide



/-! ## C10 — double-entry counterpart pairing -/

theorem find?_id_eq {rows : List Txs.Transaction} {i : Nat} {t : Txs.Transaction}
    (h : rows.find? (fun x => x.id == i) = some t) : t.id = i := by
  have := List.find?_some h
  simpa using this

theorem find?_replaceRow_of_ne (rows : List Txs.Transaction) (i j : Nat)
    (t' : Txs.Transaction) (hne : i ≠ j) (hid : t'.id = i) :
    (Txs.replaceRow rows i t').find? (fun x => x.id == j)
      = rows.find? (fun x => x.id == j) := by
  induction rows with
  | nil => rfl
  | cons x xs ih =>
    simp only [Txs.replaceRow, List.map_cons] at ih ⊢
    by_cases hx : x.id = i
    · have h1 : (t'.id == j) = false := by simp [hid, hne]
      have h2 : (x.id == j) = false := by simp [hx, hne]
      rw [show (if (x.id == i) = true then t' else x) = t' from by simp [hx],
        List.find?_cons, List.find?_cons, h1, h2]
      exact ih
    · rw [show (if (x.id == i) = true then t' else x) = x from by simp [hx],
        List.find?_cons, List.find?_cons]
      cases hxj : (x.id == j)
      · exact ih
      · rfl

theorem find?_replaceRow_self (rows : List Txs.Transaction) (i : Nat)
    (t' c : Txs.Transaction) (h : rows.find? (fun x => x.id == i) = some c)
    (hid : t'.id = i) :
    (Txs.replaceRow rows i t').find? (fun x => x.id == i) = some t' := by
  induction rows with
  | nil => simp [List.find?] at h
  | cons x xs ih =>
    simp only [Txs.replaceRow, List.map_cons] at ih ⊢
    by_cases hx : x.id = i
    · have hb : (x.id == i) = true := by simp [hx]
      rw [show (if (x.id == i) = true then t' else x) = t' from by simp [hx],
        List.find?_cons, show (t'.id == i) = true from by simp [hid]]
    · have hb : (x.id == i) = false := by simp [hx]
      rw [List.find?_cons, hb] at h
      rw [show (if (x.id == i) = true then t' else x) = x from by simp [hx],
        List.find?_cons, hb]
      exact ih h

/-- C10: `create_transaction` persists a linked pair — a primary row with
`is_counterpart = false` and a counterpart with negated value, source and
destination swapped, `is_counterpart = true`, each referencing the other —
whose values sum to zero; `update_transaction` mirrors every edit onto the
counterpart (negating the value, swapping the two accounts) so the pair
still sums to zero; `delete_transaction` deletes both rows; and both
operations fail without modifying anything when given a counterpart row's
id. -/
theorem transaction_counterpart_pairing :
    (∀ (db : Txs.TxDB) (data : Txs.TransactionCreate),
      ∃ c : Txs.Transaction,
        (Txs.create_transaction db data).1.transactions
            = db.transactions ++ [(Txs.create_transaction db data).2, c] ∧
        (Txs.create_transaction db data).2.is_counterpart = false ∧
        (Txs.create_transaction db data).2.value = data.value ∧
        c.is_counterpart = true ∧
        c.value = -data.value ∧
        c.source_account_id = data.destination_account_id ∧
        c.destination_account_id = data.source_account_id ∧
        (Txs.create_transaction db data).2.counterpart_id = some c.id ∧
        c.counterpart_id = some (Txs.create_transaction db data).2.id ∧
        (Txs.create_transaction db data).2.value + c.value = 0) ∧
    (∀ (db : Txs.TxDB) (tid : Nat) (t : Txs.Transaction) (upd : Txs.TransactionUpdate),
      Txs.get_transaction db tid = some t → t.is_counterpart = true →
        Txs.update_transaction db tid upd = (db, none) ∧
        Txs.delete_transaction db tid = (db, false)) ∧
    (∀ (db : Txs.TxDB) (tid cid : Nat) (t c : Txs.Transaction)
        (upd : Txs.TransactionUpdate),
      Txs.get_transaction db tid = some t → t.is_counterpart = false →
      t.counterpart_id = some cid → tid ≠ cid →
      Txs.get_transaction db cid = some c →
        (Txs.update_transaction db tid upd).2 = some (Txs.applyUpdate t upd) ∧
        Txs.get_transaction (Txs.update_transaction db tid upd).1 cid
          = some (Txs.applyMirror c upd) ∧
        (∀ w, upd.value = some w → (Txs.applyMirror c upd).value = -w) ∧
        (∀ s, upd.source_account_id = some s →
          (Txs.applyMirror c upd).destination_account_id = s) ∧
        (∀ d, upd.destination_account_id = some d →
          (Txs.applyMirror c upd).source_account_id = d) ∧
        (t.value + c.value = 0 →
          (Txs.applyUpdate t upd).value + (Txs.applyMirror c upd).value = 0)) ∧
    (∀ (db : Txs.TxDB) (tid : Nat) (t : Txs.Transaction),
      Txs.get_transaction db tid = some t → t.is_counterpart = false →
        (Txs.delete_transaction db tid).2 = true ∧
        ∀ x ∈ (Txs.delete_transaction db tid).1.transactions,
          x.id ≠ tid ∧ ∀ cid, t.counterpart_id = some cid → x.id ≠ cid) := by
  refine ⟨?_, ?_, ?_, ?_⟩
  · intro db data
    refine ⟨_, rfl, rfl, rfl, rfl, rfl, rfl, rfl, rfl, rfl, ?_⟩
    show data.value + -data.value = 0
    simp
  · intro db tid t upd h hc
    constructor
    · simp [Txs.update_transaction, h, hc]
    · simp [Txs.delete_transaction, h, hc]
  · intro db tid cid t c upd h hc hcp hne hfc
    have hid : t.id = tid := find?_id_eq h
    have hcid : c.id = cid := find?_id_eq hfc
    have hnc : ¬(t.is_counterpart = true) := by simp [hc]
    have hupdid : (Txs.applyUpdate t upd).id = tid := by
      simp [Txs.applyUpdate, hid]
    have hmid : (Txs.applyMirror c upd).id = cid := by
      simp [Txs.applyMirror, hcid]
    have hfind1 : (Txs.replaceRow db.transactions t.id
          (Txs.applyUpdate t upd)).find? (fun x => x.id == cid) = some c := by
      rw [hid, find?_replaceRow_of_ne db.transactions tid cid _ hne hupdid]
      exact hfc
    have hucp : (Txs.applyUpdate t upd).counterpart_id = some cid := by
      simp [Txs.applyUpdate, hcp]
    have hres : Txs.update_transaction db tid upd =
        (TxsResultDb db cid t c upd, some (Txs.applyUpdate t upd)) := by
      simp only [Txs.update_transaction, h]
      rw [if_neg hnc]
      simp only [hucp, hfind1, TxsResultDb]
    refine ⟨by rw [hres], ?_, ?_, ?_, ?_, ?_⟩
    · rw [hres]
      show (Txs.replaceRow (Txs.replaceRow db.transactions t.id
          (Txs.applyUpdate t upd)) cid (Txs.applyMirror c upd)).find?
          (fun x => x.id == cid) = some (Txs.applyMirror c upd)
      exact find?_replaceRow_self _ _ _ c hfind1 hmid
    · intro w hw
      simp [Txs.applyMirror, hw]
    · intro s hs
      simp [Txs.applyMirror, hs]
    · intro d hd
      simp [Txs.applyMirror, hd]
    · intro hsum
      cases hv : upd.value with
      | none => simpa [Txs.applyUpdate, Txs.applyMirror, hv] using hsum
      | some w => simp [Txs.applyUpdate, Txs.applyMirror, hv]
  · intro db tid t h hc
    have hid : t.id = tid := find?_id_eq h
    have hnc : ¬(t.is_counterpart = true) := by simp [hc]
    constructor
    · simp [Txs.delete_transaction, h, hc]
    · intro x hx
      simp only [Txs.delete_transaction, h] at hx
      rw [if_neg hnc] at hx
      cases hcpv : t.counterpart_id with
      | none =>
        simp only [hcpv] at hx
        have hx' := List.mem_filter.mp hx
        refine ⟨?_, ?_⟩
        · have h2 := hx'.2
          rw [hid] at h2
          simpa using h2
        · intro cid hcid
          simp at hcid
      | some cid' =>
        simp only [hcpv] at hx
        rcases hfu : (Txs.replaceRow db.transactions t.id
            { t with counterpart_id := none }).find? (fun z => z.id == cid') with _ | u
        · rw [hfu] at hx
          have hx' := List.mem_filter.mp hx
          have hnone := List.find?_eq_none.mp hfu
          refine ⟨?_, ?_⟩
          · have h2 := hx'.2
            rw [hid] at h2
            simpa using h2
          · intro cid hcid hxcid
            have hcc : cid' = cid := by injection hcid
            subst hcc
            exact hnone x hx'.1 (by simpa using hxcid)
        · rw [hfu] at hx
          have hx' := List.mem_filter.mp hx
          refine ⟨?_, ?_⟩
          · have h2 := hx'.2
            rw [hid] at h2
            simpa using h2
          · intro cid hcid hxcid
            have hcc : cid' = cid := by injection hcid
            subst hcc
            have h3 := (List.mem_filter.mp hx'.1).2
            rw [hxcid] at h3
            simp at h3

/-- Witness for `transaction_counterpart_pairing` at a concrete pair:
editing via the counterpart's id fails unchanged, deleting via the
counterpart's id fails unchanged, and editing the primary row mirrors onto
the counterpart. -/
theorem transaction_counterpart_pairing_witness :
    Txs.update_transaction c10Db 1 c10Upd = (c10Db, none) ∧
    Txs.delete_transaction c10Db 1 = (c10Db, false) ∧
    Txs.get_transaction (Txs.update_transaction c10Db 0 c10Upd).1 1
      = some (Txs.applyMirror c10Cp c10Upd) :=
  ⟨(transaction_counterpart_pairing.2.1 c10Db 1 c10Cp c10Upd rfl rfl).1,
   (transaction_counterpart_pairing.2.1 c10Db 1 c10Cp c10Upd rfl rfl).2,
   ((transaction_counterpart_pairing.2.2.1 c10Db 0 1 c10Prim c10Cp c10Upd
      rfl rfl rfl (by decide) rfl).2).1⟩

/-! ## C1 — materialization is idempotent -/

theorem populateSpecLoop_tables (b : Budget) (rs : List Recurrence) :
    ∀ db : DB,
      (populateSpecLoop db b rs).1.recurrences = db.recurrences ∧
      (populateSpecLoop db b rs).1.budgets = db.budgets ∧
      (populateSpecLoop db b rs).1.transactions = db.transactions ∧
      ∃ ext, (populateSpecLoop db b rs).1.forecasts = db.forecasts ++ ext := by
  induction rs with
  | nil => intro db; exact ⟨rfl, rfl, rfl, [], by simp [populateSpecLoop]⟩
  | cons r rest ih =>
    intro db
    by_cases hex : forecast_exists_for_recurrence db r.id b.id = true
    · simpa only [populateSpecLoop, hex, if_true] using ih db
    · have hexf : forecast_exists_for_recurrence db r.id b.id = false :=
        Bool.eq_false_iff.mpr hex
    -- split on the installment computation
      rcases hi : (if intTruthy r.installments then
          match get_installment_number r b.name with
          | none => Except.error "InvalidMonthToken"
          | some k => Except.ok (some k)
        else Except.ok (none : Option Int)) with e | inst
      · refine ⟨?_, ?_, ?_, [], ?_⟩ <;>
          simp [populateSpecLoop, hexf, hi]
      · have hstep : populateSpecLoop db b (r :: rest)
            = populateSpecLoop (create_forecast db
                { description := r.base_description, value := r.value
                  budget_id := b.id, category_id := r.category_id
                  tags := r.tags, recurrence_id := some r.id
                  installment := inst }).1 b rest := by
          simp [populateSpecLoop, hexf, hi]
        obtain ⟨h1, h2, h3, ext, h4⟩ := ih (create_forecast db
          { description := r.base_description, value := r.value
            budget_id := b.id, category_id := r.category_id
            tags := r.tags, recurrence_id := some r.id
            installment := inst }).1
        refine ⟨?_, ?_, ?_, ?_⟩
        · rw [hstep, h1]; rfl
        · rw [hstep, h2]; rfl
        · rw [hstep, h3]; rfl
        · refine ⟨(create_forecast db
              { description := r.base_description, value := r.value,
                budget_id := b.id, category_id := r.category_id,
                tags := r.tags, recurrence_id := some r.id,
                installment := inst }).2 :: ext, ?_⟩
          rw [hstep, h4]
          simp [create_forecast]

theorem forecast_exists_mono (b : Budget) (rs : List Recurrence) (db : DB)
    (rid bid : Nat) (h : forecast_exists_for_recurrence db rid bid = true) :
    forecast_exists_for_recurrence (populateSpecLoop db b rs).1 rid bid = true := by
  obtain ⟨-, -, -, ext, hf⟩ := populateSpecLoop_tables b rs db
  simp only [forecast_exists_for_recurrence] at h ⊢
  rw [hf, List.any_append, h, Bool.true_or]

theorem populateSpecLoop_idem (b : Budget) (rs : List Recurrence) :
    ∀ db : DB,
      populateSpecLoop (populateSpecLoop db b rs).1 b rs = populateSpecLoop db b rs := by
  induction rs with
  | nil => intro db; rfl
  | cons r rest ih =>
    intro db
    by_cases hex : forecast_exists_for_recurrence db r.id b.id = true
    · have e1 : populateSpecLoop db b (r :: rest) = populateSpecLoop db b rest := by
        simp [populateSpecLoop, hex]
      have hex1 : forecast_exists_for_recurrence
          (populateSpecLoop db b rest).1 r.id b.id = true :=
        forecast_exists_mono b rest db r.id b.id hex
      rw [e1]
      have e2 : populateSpecLoop (populateSpecLoop db b rest).1 b (r :: rest)
          = populateSpecLoop (populateSpecLoop db b rest).1 b rest := by
        simp [populateSpecLoop, hex1]
      rw [e2]
      exact ih db
    · have hexf : forecast_exists_for_recurrence db r.id b.id = false :=
        Bool.eq_false_iff.mpr hex
      rcases hi : (if intTruthy r.installments then
          match get_installment_number r b.name with
          | none => Except.error "InvalidMonthToken"
          | some k => Except.ok (some k)
        else Except.ok (none : Option Int)) with e | inst
      · have e1 : populateSpecLoop db b (r :: rest) = (db, Except.error e) := by
          simp [populateSpecLoop, hexf, hi]
        rw [e1]
        show populateSpecLoop db b (r :: rest) = (db, Except.error e)
        exact e1
      · have hstep : populateSpecLoop db b (r :: rest)
            = populateSpecLoop (create_forecast db
                { description := r.base_description, value := r.value
                  budget_id := b.id, category_id := r.category_id
                  tags := r.tags, recurrence_id := some r.id
                  installment := inst }).1 b rest := by
          simp [populateSpecLoop, hexf, hi]
        have hexdb' : forecast_exists_for_recurrence (create_forecast db
            { description := r.base_description, value := r.value
              budget_id := b.id, category_id := r.category_id
              tags := r.tags, recurrence_id := some r.id
              installment := inst }).1 r.id b.id = true := by
          simp [create_forecast, forecast_exists_for_recurrence]
        have hex1 : forecast_exists_for_recurrence
            (populateSpecLoop (create_forecast db
              { description := r.base_description, value := r.value
                budget_id := b.id, category_id := r.category_id
                tags := r.tags, recurrence_id := some r.id
                installment := inst }).1 b rest).1 r.id b.id = true :=
          forecast_exists_mono b rest _ r.id b.id hexdb'
        rw [hstep]
        have e2 : populateSpecLoop (populateSpecLoop (create_forecast db
            { description := r.base_description, value := r.value
              budget_id := b.id, category_id := r.category_id
              tags := r.tags, recurrence_id := some r.id
              installment := inst }).1 b rest).1 b (r :: rest)
            = populateSpecLoop (populateSpecLoop (create_forecast db
            { description := r.base_description, value := r.value
              budget_id := b.id, category_id := r.category_id
              tags := r.tags, recurrence_id := some r.id
              installment := inst }).1 b rest).1 b rest := by
        -- the forecast created for r makes the second pass skip r
          simp [populateSpecLoop, hex1]
        rw [e2]
        exact ih _

theorem pairKey_beq (g : Forecast) (rid bid : Nat) :
    (pairKey g == some (rid, bid))
      = (g.recurrence_id == some rid && g.budget_id == bid) := by
  cases hr : g.recurrence_id with
  | none => simp [pairKey, hr]
  | some r =>
    simp only [pairKey, hr, Option.map_some]
    rw [Bool.eq_iff_iff]
    simp [Prod.ext_iff]

theorem uniquePairs_append_one (l : List Forecast) (f : Forecast) (k : Nat × Nat)
    (hk : pairKey f = some k) (hu : uniquePairs l = true)
    (hnew : l.any (fun g => pairKey g == some k) = false) :
    uniquePairs (l ++ [f]) = true := by
  induction l with
  | nil => simp [uniquePairs, hk]
  | cons g gs ih =>
    simp only [List.any_cons, Bool.or_eq_false_iff] at hnew
    simp only [uniquePairs, Bool.and_eq_true] at hu
    simp only [List.cons_append, uniquePairs, Bool.and_eq_true]
    refine ⟨?_, ih hu.2 hnew.2⟩
    have hu1 := hu.1
    have hnew1 := hnew.1
    rcases hg : pairKey g with _ | kg
    · rfl
    · have hu1' := hu1
      rw [hg] at hu1'
      have hnone : ∀ x ∈ gs, ¬ pairKey x = some kg := by simpa using hu1'
      have hgne : ¬ pairKey g = some k := by simpa using hnew1
      have hne : k ≠ kg := fun hkk => (hkk ▸ hgne) hg
      show (!(gs ++ [f]).any fun x => pairKey x == some kg) = true
      rw [Bool.not_eq_true', List.any_append, Bool.or_eq_false_iff]
      constructor
      · rw [List.any_eq_false]
        intro x hx
        simpa using hnone x hx
      · rw [List.any_eq_false]
        intro x hx
        simp only [List.mem_singleton] at hx
        subst hx
        simp [hk, hne]

theorem populateSpecLoop_uniq (b : Budget) (rs : List Recurrence) :
    ∀ db : DB, uniquePairs db.forecasts = true →
      uniquePairs (populateSpecLoop db b rs).1.forecasts = true := by
  induction rs with
  | nil => intro db h; exact h
  | cons r rest ih =>
    intro db h
    by_cases hex : forecast_exists_for_recurrence db r.id b.id = true
    · have e1 : populateSpecLoop db b (r :: rest) = populateSpecLoop db b rest := by
        simp [populateSpecLoop, hex]
      rw [e1]
      exact ih db h
    · have hexf : forecast_exists_for_recurrence db r.id b.id = false :=
        Bool.eq_false_iff.mpr hex
      rcases hi : (if intTruthy r.installments then
          match get_installment_number r b.name with
          | none => Except.error "InvalidMonthToken"
          | some k => Except.ok (some k)
        else Except.ok (none : Option Int)) with e | inst
      · have e1 : populateSpecLoop db b (r :: rest) = (db, Except.error e) := by
          simp [populateSpecLoop, hexf, hi]
        rw [e1]
        exact h
      · have hstep : populateSpecLoop db b (r :: rest)
            = populateSpecLoop (create_forecast db
                { description := r.base_description, value := r.value
                  budget_id := b.id, category_id := r.category_id
                  tags := r.tags, recurrence_id := some r.id
                  installment := inst }).1 b rest := by
          simp [populateSpecLoop, hexf, hi]
        rw [hstep]
        apply ih
        show uniquePairs (db.forecasts ++ [_]) = true
        apply uniquePairs_append_one _ _ (r.id, b.id) (by simp [pairKey]) h
        simp only [forecast_exists_for_recurrence] at hexf
        rw [show (fun g => pairKey g == some (r.id, b.id))
            = (fun g => g.recurrence_id == some r.id && g.budget_id == b.id)
          from funext (fun g => pairKey_beq g r.id b.id)]
        exact hexf

/-- C1: materialization is idempotent — running the materialization step a
second time on the same budget changes nothing (so the forecast set after
two calls equals the set after one call, and no second-pass forecasts are
created), and materialization preserves the invariant that at most one
forecast exists per (recurrence_id, budget_id) pair.  The dedup logic
(`forecast_exists_for_recurrence` then skip) is the source's; the
template-copy step is spec-modelled (see `populateSpecLoop`), which is why
the claim is settled against `materialize`. -/
theorem materialize_idempotent :
    (∀ (db : DB) (b : Budget), materialize (materialize db b).1 b = materialize db b) ∧
    (∀ (db : DB) (b : Budget), uniquePairs db.forecasts = true →
      uniquePairs (materialize db b).1.forecasts = true) := by
  constructor
  · intro db b
    rcases hg : get_recurrences_for_month db b.project_id b.name with e | recs
    · have e1 : materialize db b = (db, Except.error e) := by
        simp [materialize, hg]
      rw [e1]
      simp [materialize, hg]
    · have e1 : materialize db b = populateSpecLoop db b recs := by
        simp [materialize, hg]
      have hrec : (populateSpecLoop db b recs).1.recurrences = db.recurrences :=
        (populateSpecLoop_tables b recs db).1
      have hg2 : get_recurrences_for_month (populateSpecLoop db b recs).1
          b.project_id b.name = Except.ok recs := by
        simp only [get_recurrences_for_month, hrec]
        simpa only [get_recurrences_for_month] using hg
      rw [e1]
      have e2 : materialize (populateSpecLoop db b recs).1 b
          = populateSpecLoop (populateSpecLoop db b recs).1 b recs := by
        simp [materialize, hg2]
      rw [e2]
      exact populateSpecLoop_idem b recs db
  · intro db b h
    rcases hg : get_recurrences_for_month db b.project_id b.name with e | recs
    · have e1 : materialize db b = (db, Except.error e) := by
        simp [materialize, hg]
      rw [e1]
      exact h
    · have e1 : materialize db b = populateSpecLoop db b recs := by
        simp [materialize, hg]
      rw [e1]
      exact populateSpecLoop_uniq b recs db h

/-- Witness for `materialize_idempotent` at a concrete store: materializing
the sample budget (which creates the recurrence's forecast) preserves the
at-most-one-forecast-per-(recurrence, budget) invariant, and a second
materialization is a no-op. -/
theorem materialize_idempotent_witness :
    uniquePairs (materialize c1Db c1Budget).1.forecasts = true ∧
    materialize (materialize c1Db c1Budget).1 c1Budget = materialize c1Db c1Budget :=
  ⟨materialize_idempotent.2 c1Db c1Budget (by decide),
   materialize_idempotent.1 c1Db c1Budget⟩

/-! ## C4 — conjunctive transaction matching -/

theorem foldl_if_add (p : LedgerTxn → Bool) (ts : List LedgerTxn) :
    ∀ acc : Int,
      ts.foldl (fun acc t => if p t then acc + t.value else acc) acc
        = acc + ((ts.filter p).map (·.value)).sum := by
  induction ts with
  | nil => intro acc; simp
  | cons t rest ih =>
    intro acc
    cases hp : p t with
    | false => simp [List.foldl_cons, hp, ih acc]
    | true => simp [List.foldl_cons, hp, ih (acc + t.value), add_assoc]

theorem txnMatches_eq_matchesAmended (f : Forecast) (t : LedgerTxn) :
    txnMatches f t = matchesAmended f t := by
  rw [Bool.eq_iff_iff]
  cases hc : f.category_id with
  | none => simp [txnMatches, matchesAmended, hc]
  | some c => simp [txnMatches, matchesAmended, hc]

/-- C4 counterexample: read literally (a set description — even `""` — is a
declared criterion, and `""` is a case-insensitive substring of every
string), the forecast `c4F` declares a criterion matching every
transaction, so the claim says its actual over `[c4T]` is `5`; the code
treats the empty description as falsy ("no criteria") and yields `0`. -/
theorem actualValue_empty_description_counterexample :
    actualValue c4F [c4T]
      ≠ (if hasCriteriaClaim c4F
          then (([c4T].filter (matchesClaim c4F)).map (·.value)).sum
          else 0) := by
  decide

/-- C4 amended: a forecast's actual value over a transaction list is the
sum of `t.value` over exactly those transactions satisfying every declared
criterion conjunctively — category equality, case-insensitive substring
containment of the description, tag-subset containment — where a criterion
counts as declared per Python truthiness (the description criterion exists
only when the description is non-null and non-empty), and a forecast with
no truthy criterion yields actual = 0 for every transaction set. -/
theorem actualValue_eq_filter_sum (f : Forecast) (ts : List LedgerTxn) :
    actualValue f ts
      = (if forecastHasCriteria f
          then ((ts.filter (matchesAmended f)).map (·.value)).sum
          else 0) := by
  unfold actualValue
  cases hcrit : forecastHasCriteria f with
  | false => rfl
  | true =>
    simp only [eq_self_iff_true, if_true]
    have h1 : (fun (acc : Int) (t : LedgerTxn) =>
          if txnMatches f t then acc + t.value else acc)
        = (fun (acc : Int) (t : LedgerTxn) =>
          if matchesAmended f t then acc + t.value else acc) := by
      funext acc t
      rw [txnMatches_eq_matchesAmended]
    rw [h1, foldl_if_add, zero_add]

/-! ## C8 — validation of current_installment precedes persistence -/

/-- C8 counterexample: invoking `forecast create` with
`--current-installment 3` and no `--installments` against the month
`2025-06`, whose budget does not exist yet, is rejected with
"--current-installment requires --installments" — but only after
`_resolve_or_create_budget_id` has already auto-created and committed the
`2025-06` budget, so persistent state **has** been created at the time of
rejection, contradicting the claim. -/
theorem create_forecast_check_counterexample :
    (create_forecast_check c8Db "2025-06" (some (Sum.inr "2025-06"))
        (some "Bad") none false [] none (some 3) (some 1)).2
      = PrefixOutcome.errRequiresInstallments ∧
    (create_forecast_check c8Db "2025-06" (some (Sum.inr "2025-06"))
        (some "Bad") none false [] none (some 3) (some 1)).1 ≠ c8Db ∧
    ((create_forecast_check c8Db "2025-06" (some (Sum.inr "2025-06"))
        (some "Bad") none false [] none (some 3) (some 1)).1).budgets.length = 1 := by
  refine ⟨by decide, by decide, by decide⟩

theorem createForecastCatAndValidate_state (db1 : DB) (bid : Nat)
    (category : Option String) (conf : Bool) (installments cur : Option Int)
    (hC : category = none ∨ ∃ cname p, category = some cname ∧
      db1.categories.find? (fun q => q.2 == cname) = some p) :
    (createForecastCatAndValidate db1 bid category conf installments cur).1 = db1 := by
  rcases hC with rfl | ⟨cname, p, rfl, hfound⟩
  · unfold createForecastCatAndValidate
    dsimp only
    by_cases h1 : cur.isSome ∧ ¬ intTruthy installments
    · rw [if_pos h1]
    · rw [if_neg h1]
      cases h2 : (match cur with
          | some k => decide (k < 1) || decide (installments.getD 0 < k)
          | none => false)
      · rfl
      · rfl
  · unfold createForecastCatAndValidate
    dsimp only
    rw [hfound]
    dsimp only
    by_cases h1 : cur.isSome ∧ ¬ intTruthy installments
    · rw [if_pos h1]
    · rw [if_neg h1]
      cases h2 : (match cur with
          | some k => decide (k < 1) || decide (installments.getD 0 < k)
          | none => false)
      · rfl
      · rfl

/-- C8 amended: the `current_installment` validations reject the request
before the forecast or recurrence the command would create is persisted,
but they run *after* budget resolution and category resolution; the
rejection therefore leaves the store unchanged only when the referenced
budget already exists (or is addressed by raw id) and the category argument
resolves without creating — otherwise the auto-created budget (with its
materialized forecasts, cf. the counterexample) has already been
committed when the rejection is reported. -/
theorem create_forecast_check_rejection_no_persist
    (db : DB) (activeMonth : String) (budgetArg : Option (Nat ⊕ String))
    (description : Option String) (category : Option String) (conf : Bool)
    (tags : List String) (installments cur : Option Int)
    (projectArg : Option Nat)
    (hB : (∃ u, budgetArg = some (Sum.inl u)) ∨
      (∃ pid b, projectArg = some pid ∧
        get_budget_by_name db pid (resolvedMonth budgetArg activeMonth) = some b))
    (hC : category = none ∨ ∃ cname p, category = some cname ∧
      db.categories.find? (fun q => q.2 == cname) = some p)
    (hrej : (create_forecast_check db activeMonth budgetArg description category
        conf tags installments cur projectArg).2
          = PrefixOutcome.errRequiresInstallments ∨
      (create_forecast_check db activeMonth budgetArg description category
        conf tags installments cur projectArg).2
          = PrefixOutcome.errInstallmentRange) :
    (create_forecast_check db activeMonth budgetArg description category
      conf tags installments cur projectArg).1 = db := by
  clear hrej
  unfold create_forecast_check
  by_cases hcrit : ¬ strTruthy description ∧ category = none ∧ tags = []
  · rw [if_pos hcrit]
  · rw [if_neg hcrit]
    rcases budgetArg with _ | su
    · rcases hB with ⟨u, hu⟩ | ⟨pid, b, hpid, hfound⟩
      · exact absurd hu (by simp)
      · subst hpid
        simp only [resolvedMonth] at hfound
        simp only [hfound]
        exact createForecastCatAndValidate_state db b.id category conf installments cur hC
    · rcases su with u | m
      · exact createForecastCatAndValidate_state db u category conf installments cur hC
      · rcases hB with ⟨u, hu⟩ | ⟨pid, b, hpid, hfound⟩
        · exact absurd hu (by simp)
        · subst hpid
          simp only [resolvedMonth] at hfound
          simp only [hfound]
          exact createForecastCatAndValidate_state db b.id category conf installments cur hC

/-- Witness for `create_forecast_check_rejection_no_persist`: with the
`2025-06` budget already existing, the same invalid invocation is rejected
with the store untouched. -/
theorem create_forecast_check_rejection_no_persist_witness :
    (create_forecast_check
        { budgets := [⟨7, "2025-06", ⟨2025, 6, 1⟩, ⟨2025, 6, 30⟩, 1⟩]
          forecasts := [], recurrences := [], transactions := [], accounts := []
          project_accounts := [], categories := [], nextId := 50 }
        "2025-06" (some (Sum.inr "2025-06")) (some "Bad") none false []
        none (some 3) (some 1)).1
      = { budgets := [⟨7, "2025-06", ⟨2025, 6, 1⟩, ⟨2025, 6, 30⟩, 1⟩]
          forecasts := [], recurrences := [], transactions := [], accounts := []
          project_accounts := [], categories := [], nextId := 50 } :=
  create_forecast_check_rejection_no_persist _ _ _ _ _ _ _ _ _ _
    (Or.inr ⟨1, ⟨7, "2025-06", ⟨2025, 6, 1⟩, ⟨2025, 6, 30⟩, 1⟩, rfl, by decide⟩)
    (Or.inl rfl) (Or.inl (by decide))

/-! ## C2 — recurrence applicability -/

theorem carryUp_spec (y m : Int) :
    (carryUp y m).1 * 12 + (carryUp y m).2 = y * 12 + m ∧
    (carryUp y m).2 ≤ 12 ∧ (1 ≤ m → 1 ≤ (carryUp y m).2) := by
  induction y, m using carryUp.induct with
  | case1 y m hlt ih =>
    rw [carryUp.eq_def, if_pos hlt]
    refine ⟨by omega, ih.2.1, fun h => ?_⟩
    have := ih.2.2 (by omega)
    omega
  | case2 y m hnlt =>
    rw [carryUp.eq_def, if_neg hnlt]
    exact ⟨rfl, by simpa using hnlt, fun h => h⟩

theorem borrowDown_spec (y m : Int) :
    (borrowDown y m).1 * 12 + (borrowDown y m).2 = y * 12 + m ∧
    1 ≤ (borrowDown y m).2 ∧ (m ≤ 12 → (borrowDown y m).2 ≤ 12) := by
  induction y, m using borrowDown.induct with
  | case1 y m hlt ih =>
    rw [borrowDown.eq_def, if_pos hlt]
    refine ⟨by omega, ih.2.1, fun h => ?_⟩
    exact ih.2.2 (by omega)
  | case2 y m hnlt =>
    rw [borrowDown.eq_def, if_neg hnlt]
    exact ⟨rfl, by omega, fun h => h⟩

theorem month_offset_start_minus_one :
    _month_offset "2025-01" (0 - 1) = some "2024-12" := by
  have h1 : parseMonth "2025-01" = some (2025, 1) := by decide
  unfold _month_offset
  rw [h1]
  dsimp only
  have hc : carryUp ((2025 : Nat) : Int) (((1 : Nat) : Int) + (0 - 1)) = (2025, 0) := by
    rw [carryUp.eq_def]
    norm_num
  have hb : borrowDown (2025 : Int) (0 : Int) = (2024, 12) := by
    rw [borrowDown.eq_def]
    norm_num
    rw [borrowDown.eq_def]
    norm_num
  rw [hc]
  dsimp only
  rw [hb]
  have : renderTok (2024 : Int) (12 : Int) = "2024-12" := by
    simp [renderTok, renderIntPad, padLeft, natDigits.eq_def]
    decide
  rw [this]

/-- C2 counterexample: a recurrence with `installments = 0` (reachable via
`RecurrenceCreate`/`RecurrenceUpdate`, whose `installments` field is an
unconstrained optional int).  Read literally, the claim's installment
branch applies: `offset(S, N-1) = offset("2025-01", -1) = "2024-12"`, so
the recurrence should apply to **no** month, in particular not to its own
start month.  The code's `if r.installments:` treats `0` as falsy and takes
the open branch, so `get_recurrences_for_month` returns the recurrence for
`2025-01`. -/
theorem get_recurrences_installments_zero_counterexample :
    get_recurrences_for_month c2Db 1 "2025-01" = Except.ok [c2Rec] ∧
    appliesClaim c2Rec "2025-01" = false := by
  constructor
  · rfl
  · unfold appliesClaim
    show (match (some (0 : Int) : Option Int) with
      | some n =>
        strLeB c2Rec.start "2025-01" &&
          (match _month_offset c2Rec.start (n - 1) with
           | some last => strLeB "2025-01" last
           | none => false)
      | none =>
        strLeB c2Rec.start "2025-01" &&
          (match c2Rec.«end» with
           | none => true
           | some e => strLeB "2025-01" e)) = false
    dsimp only
    rw [show (c2Rec.start : String) = "2025-01" from rfl, month_offset_start_minus_one]
    decide

theorem appliesAmended_eq (r : Recurrence) (m : String) :
    appliesAmended r m = (strLeB r.start m && recTailCheck m r) := by
  unfold appliesAmended recTailCheck
  rcases hinst : r.installments with _ | n
  · simp [intTruthy]
  · by_cases hn : n = (0 : Int)
    · subst hn
      simp [intTruthy]
    · simp [intTruthy, hn]

theorem applyRecFilter_mem (m : String) :
    ∀ (l out : List Recurrence), applyRecFilter m l = Except.ok out →
      ∀ r, r ∈ out ↔ r ∈ l ∧ recTailCheck m r = true := by
  intro l
  induction l with
  | nil =>
    intro out h r
    simp only [applyRecFilter] at h
    cases h
    simp
  | cons x rest ih =>
    intro out h r
    rcases hinst : x.installments with _ | n
    · rcases hend : x.«end» with _ | e
      · -- open, unbounded: include
        simp only [applyRecFilter, hinst, hend] at h
        rcases hr : applyRecFilter m rest with e' | out'
        · rw [hr] at h
          simp [Except.map] at h
        · rw [hr] at h
          simp only [Except.map] at h
          cases h
          have hx : recTailCheck m x = true := by
            simp [recTailCheck, hinst, hend]
          simp only [List.mem_cons, ih out' hr r]
          constructor
          · rintro (rfl | ⟨hm2, ht⟩)
            · exact ⟨Or.inl rfl, hx⟩
            · exact ⟨Or.inr hm2, ht⟩
          · rintro ⟨rfl | hm2, ht⟩
            · exact Or.inl rfl
            · exact Or.inr ⟨hm2, ht⟩
      · -- open, bounded by e
        simp only [applyRecFilter, hinst, hend] at h
        by_cases hle : strLeB m e = true
        · rw [if_pos hle] at h
          rcases hr : applyRecFilter m rest with e' | out'
          · rw [hr] at h
            simp [Except.map] at h
          · rw [hr] at h
            simp only [Except.map] at h
            cases h
            have hx : recTailCheck m x = true := by
              simp [recTailCheck, hinst, hend, hle]
            simp only [List.mem_cons, ih out' hr r]
            constructor
            · rintro (rfl | ⟨hm2, ht⟩)
              · exact ⟨Or.inl rfl, hx⟩
              · exact ⟨Or.inr hm2, ht⟩
            · rintro ⟨rfl | hm2, ht⟩
              · exact Or.inl rfl
              · exact Or.inr ⟨hm2, ht⟩
        · rw [if_neg hle] at h
          have hx : recTailCheck m x = false := by
            simp only [recTailCheck, hinst, hend]
            simpa using hle
          rw [ih out h r, List.mem_cons]
          constructor
          · rintro ⟨hm2, ht⟩
            exact ⟨Or.inr hm2, ht⟩
          · rintro ⟨rfl | hm2, ht⟩
            · rw [hx] at ht
              cases ht
            · exact ⟨hm2, ht⟩
    · by_cases hn : n = (0 : Int)
      · subst hn
        -- zero installments behaves as the open branch
        rcases hend : x.«end» with _ | e
        · simp only [applyRecFilter, hinst, hend, ne_eq, not_true_eq_false,
            if_false] at h
          rcases hr : applyRecFilter m rest with e' | out'
          · rw [hr] at h
            simp [Except.map] at h
          · rw [hr] at h
            simp only [Except.map] at h
            cases h
            have hx : recTailCheck m x = true := by
              simp [recTailCheck, hinst, hend]
            simp only [List.mem_cons, ih out' hr r]
            constructor
            · rintro (rfl | ⟨hm2, ht⟩)
              · exact ⟨Or.inl rfl, hx⟩
              · exact ⟨Or.inr hm2, ht⟩
            · rintro ⟨rfl | hm2, ht⟩
              · exact Or.inl rfl
              · exact Or.inr ⟨hm2, ht⟩
        · simp only [applyRecFilter, hinst, hend, ne_eq, not_true_eq_false,
            if_false] at h
          by_cases hle : strLeB m e = true
          · rw [if_pos hle] at h
            rcases hr : applyRecFilter m rest with e' | out'
            · rw [hr] at h
              simp [Except.map] at h
            · rw [hr] at h
              simp only [Except.map] at h
              cases h
              have hx : recTailCheck m x = true := by
                simp [recTailCheck, hinst, hend, hle]
              simp only [List.mem_cons, ih out' hr r]
              constructor
              · rintro (rfl | ⟨hm2, ht⟩)
                · exact ⟨Or.inl rfl, hx⟩
                · exact ⟨Or.inr hm2, ht⟩
              · rintro ⟨rfl | hm2, ht⟩
                · exact Or.inl rfl
                · exact Or.inr ⟨hm2, ht⟩
          · rw [if_neg hle] at h
            have hx : recTailCheck m x = false := by
              simp only [recTailCheck, hinst, hend]
              simpa using hle
            rw [ih out h r, List.mem_cons]
            constructor
            · rintro ⟨hm2, ht⟩
              exact ⟨Or.inr hm2, ht⟩
            · rintro ⟨rfl | hm2, ht⟩
              · rw [hx] at ht
                cases ht
              · exact ⟨hm2, ht⟩
      · -- genuine installments branch
        simp only [applyRecFilter, hinst, ne_eq, hn, not_false_eq_true, if_true] at h
        rcases hoff : _month_offset x.start (n - 1) with _ | last
        · rw [hoff] at h
          dsimp only at h
          cases h
        · rw [hoff] at h
          dsimp only at h
          by_cases hle : strLeB m last = true
          · rw [if_pos hle] at h
            rcases hr : applyRecFilter m rest with e' | out'
            · rw [hr] at h
              simp [Except.map] at h
            · rw [hr] at h
              simp only [Except.map] at h
              cases h
              have hx : recTailCheck m x = true := by
                simp [recTailCheck, hinst, hn, hoff, hle]
              simp only [List.mem_cons, ih out' hr r]
              constructor
              · rintro (rfl | ⟨hm2, ht⟩)
                · exact ⟨Or.inl rfl, hx⟩
                · exact ⟨Or.inr hm2, ht⟩
              · rintro ⟨rfl | hm2, ht⟩
                · exact Or.inl rfl
                · exact Or.inr ⟨hm2, ht⟩
          · rw [if_neg hle] at h
            have hx : recTailCheck m x = false := by
              simp only [recTailCheck, hinst, ne_eq, hn, not_false_eq_true,
                if_true, hoff]
              simpa using hle
            rw [ih out h r, List.mem_cons]
            constructor
            · rintro ⟨hm2, ht⟩
              exact ⟨Or.inr hm2, ht⟩
            · rintro ⟨rfl | hm2, ht⟩
              · rw [hx] at ht
                cases ht
              · exact ⟨hm2, ht⟩

/-- C2 amended: `get_recurrences_for_month(project, m)` returns exactly the
project's recurrences that apply to `m`, where applicability follows the
claim's formulas amended for Python truthiness — the installment branch
(`S <= m <= offset(S, N-1)`) governs when `installments` is set **and
nonzero**, and a recurrence with `installments = 0` behaves like one with
`installments` unset (`S <= m` and `end` unset or `m <= end`); the
installment number for `m` is `monthsBetween(S, m) + 1`. -/
theorem get_recurrences_for_month_amended :
    (∀ (db : DB) (pid : Nat) (m : String) (out : List Recurrence),
      get_recurrences_for_month db pid m = Except.ok out →
      ∀ r, r ∈ out ↔ r ∈ db.recurrences ∧ r.project_id = pid ∧
        appliesAmended r m = true) ∧
    (∀ (r : Recurrence) (m : String) (d : Int),
      _months_between r.start m = some d →
      get_installment_number r m = some (d + 1)) := by
  constructor
  · intro db pid m out h r
    unfold get_recurrences_for_month at h
    rw [applyRecFilter_mem m _ out h r, List.mem_filter]
    constructor
    · rintro ⟨⟨hmem, hφ⟩, htail⟩
      simp only [Bool.and_eq_true, beq_iff_eq] at hφ
      refine ⟨hmem, hφ.1, ?_⟩
      rw [appliesAmended_eq]
      simp [hφ.2, htail]
    · rintro ⟨hmem, hpid, happ⟩
      rw [appliesAmended_eq] at happ
      simp only [Bool.and_eq_true] at happ
      exact ⟨⟨hmem, by simp [hpid, happ.1]⟩, happ.2⟩
  · intro r m d h
    unfold get_installment_number
    rw [h]
    rfl

/-- Witness for `get_recurrences_for_month_amended` at a concrete store:
the sample open recurrence is returned for 2025-03 and therefore applies
to it, and its installment number for 2025-03 is 3. -/
theorem get_recurrences_for_month_amended_witness :
    appliesAmended c1Rec "2025-03" = true ∧
    get_installment_number c1Rec "2025-03" = some 3 :=
  ⟨(((get_recurrences_for_month_amended.1 c1Db 1 "2025-03" [c1Rec] rfl) c1Rec).mp
      (by simp)).2.2,
   by
    have := get_recurrences_for_month_amended.2 c1Rec "2025-03" 2 (by decide)
    simpa using this⟩

/-! ## C6 — account balances in the report -/

theorem sumVals_filter_swap (l : List LedgerTxn) (p q : LedgerTxn → Bool) :
    sumVals ((l.filter p).filter q) = sumVals (l.filter (fun t => p t && q t)) := by
  rw [List.filter_filter]
  unfold sumVals
  congr 1
  congr 1
  apply List.filter_congr
  intro t _
  rw [Bool.and_comm]

theorem ite_ne_zero_self (x : Int) : (if x ≠ 0 then x else 0) = x := by
  by_cases h : x = 0
  · simp [h]
  · simp [h]

/-- C6: for every account of the report's project, the reported net balance
is the sum of the account's transaction values within
`[budget.start_date, budget.end_date]` (within the report's project scope),
`calculated_balance` is `initial_balance` plus the sum of the account's
transaction values with `date <= budget.end_date` (cumulative from account
inception), and `difference` is `calculated_balance - current_balance`. -/
theorem report_account_balances (db : DB) (bid : Nat) (today : Dte) (b : Budget)
    (report : ReportRead)
    (hfind : db.budgets.find? (fun x => x.id == bid) = some b)
    (hrep : generate_report db bid today = Except.ok report) :
    report.account_balances
      = (db.accounts.filter (fun a =>
          db.project_accounts.contains (b.project_id, a.id))).map (fun a =>
            { account_id := a.id
              account_name := a.name
              balance := netSpec db b a
              calculated_balance := a.initial_balance + cumulativeSpec db b a
              current_balance := a.current_balance
              difference := a.initial_balance + cumulativeSpec db b a
                - a.current_balance }) := by
  unfold generate_report at hrep
  rw [hfind] at hrep
  dsimp only at hrep
  simp only [Except.ok.injEq] at hrep
  subst hrep
  dsimp only
  apply List.map_congr_left
  intro a _
  have hnet : sumVals ((db.transactions.filter (fun t =>
        t.project_id == b.project_id && txnInRange b t)).filter
          (fun t => t.account_id == a.id)) = netSpec db b a := by
    rw [sumVals_filter_swap]
    rfl
  have hcum : sumVals ((db.transactions.filter (fun t =>
        t.project_id == b.project_id && dateLeB t.date b.end_date)).filter
          (fun t => t.account_id == a.id)) = cumulativeSpec db b a := by
    rw [sumVals_filter_swap]
    rfl
  rw [hnet, hcum, ite_ne_zero_self, ite_ne_zero_self]

/-- Witness for `report_account_balances` at the sample store. -/
theorem report_account_balances_witness :
    c6Report.account_balances
      = (c6Db.accounts.filter (fun a =>
          c6Db.project_accounts.contains (c6Budget.project_id, a.id))).map (fun a =>
            { account_id := a.id
              account_name := a.name
              balance := netSpec c6Db c6Budget a
              calculated_balance := a.initial_balance + cumulativeSpec c6Db c6Budget a
              current_balance := a.current_balance
              difference := a.initial_balance + cumulativeSpec c6Db c6Budget a
                - a.current_balance }) :=
  report_account_balances c6Db 10 ⟨2025, 6, 1⟩ c6Budget c6Report rfl rfl

/-! ## C5 — forward projection over current-or-future budgets -/

theorem budgetsByName_sorted (db : DB) (pid : Nat) :
    List.Pairwise (fun a b : Budget => strLeB a.name b.name = true)
      (budgetsByName db pid) :=
  List.sorted_mergeSort
    (fun a b c hab hbc => strLeB_trans a.name b.name c.name hab hbc)
    (fun a b => strLeB_total a.name b.name) _

theorem accumLoop_eq_filter (db : DB) (target : Budget) (today : Dte) :
    ∀ l : List Budget,
      List.Pairwise (fun a b : Budget => strLeB a.name b.name = true) l →
      accumLoop db target today l
        = ((l.filter (fun c =>
            currentOrFutureB c today && strLeB c.name target.name)).map
              (accumContribution db target)).sum := by
  intro l
  induction l with
  | nil => intro _; simp [accumLoop]
  | cons b rest ih =>
    intro hsort
    have hp := List.pairwise_cons.mp hsort
    by_cases hcf : currentOrFutureB b today = true
    · by_cases hbt : strLtB target.name b.name = true
      · have hble : strLeB b.name target.name = false := by
          simp [strLeB, hbt]
        have e1 : accumLoop db target today (b :: rest) = 0 := by
          simp [accumLoop, hcf, hbt]
        rw [e1]
        have hfil : (b :: rest).filter (fun c =>
            currentOrFutureB c today && strLeB c.name target.name) = [] := by
          rw [List.filter_eq_nil_iff]
          intro x hx
          rcases List.mem_cons.mp hx with rfl | hx'
          · simp [hble]
          · have hbx : strLeB b.name x.name = true := hp.1 x hx'
            have : strLeB x.name target.name = false := by
              cases hxt : strLeB x.name target.name
              · rfl
              · have := strLeB_trans b.name x.name target.name hbx hxt
                rw [this] at hble
                cases hble
            simp [this]
        rw [hfil]
        rfl
      · have hble : strLeB b.name target.name = true := by
          simp [strLeB]
          simpa using hbt
        have e1 : accumLoop db target today (b :: rest)
            = accumContribution db target b + accumLoop db target today rest := by
          simp [accumLoop, hcf, hbt]
        rw [e1, ih hp.2]
        have hfil : (b :: rest).filter (fun c =>
            currentOrFutureB c today && strLeB c.name target.name)
            = b :: rest.filter (fun c =>
              currentOrFutureB c today && strLeB c.name target.name) := by
          rw [List.filter_cons_of_pos]
          simp [hcf, hble]
        rw [hfil, List.map_cons, List.sum_cons]
    · have e1 : accumLoop db target today (b :: rest)
          = accumLoop db target today rest := by
        simp [accumLoop, hcf]
      rw [e1, ih hp.2]
      have hfil : (b :: rest).filter (fun c =>
          currentOrFutureB c today && strLeB c.name target.name)
          = rest.filter (fun c =>
            currentOrFutureB c today && strLeB c.name target.name) := by
        rw [List.filter_cons_of_neg]
        simp [hcf]
      rw [hfil]

theorem projLoop_eq_filter (db : DB) (target : Budget) (today : Dte) :
    ∀ l : List Budget,
      List.Pairwise (fun a b : Budget => strLeB a.name b.name = true) l →
      projLoop db target today l
        = ((l.filter (fun c =>
            currentOrFutureB c today && strLeB c.name target.name)).map
              (fun c => ((db.forecasts.filter (fun f => f.budget_id == c.id)).map
                (·.value)).sum)).sum := by
  intro l
  induction l with
  | nil => intro _; simp [projLoop]
  | cons b rest ih =>
    intro hsort
    have hp := List.pairwise_cons.mp hsort
    by_cases hcf : currentOrFutureB b today = true
    · by_cases hbt : strLtB target.name b.name = true
      · have hble : strLeB b.name target.name = false := by
          simp [strLeB, hbt]
        have e1 : projLoop db target today (b :: rest) = 0 := by
          simp [projLoop, hcf, hbt]
        rw [e1]
        have hfil : (b :: rest).filter (fun c =>
            currentOrFutureB c today && strLeB c.name target.name) = [] := by
          rw [List.filter_eq_nil_iff]
          intro x hx
          rcases List.mem_cons.mp hx with rfl | hx'
          · simp [hble]
          · have hbx : strLeB b.name x.name = true := hp.1 x hx'
            have : strLeB x.name target.name = false := by
              cases hxt : strLeB x.name target.name
              · rfl
              · have := strLeB_trans b.name x.name target.name hbx hxt
                rw [this] at hble
                cases hble
            simp [this]
        rw [hfil]
        rfl
      · have hble : strLeB b.name target.name = true := by
          simp [strLeB]
          simpa using hbt
        have e1 : projLoop db target today (b :: rest)
            = ((db.forecasts.filter (fun f => f.budget_id == b.id)).map
                (·.value)).sum + projLoop db target today rest := by
          simp [projLoop, hcf, hbt]
        rw [e1, ih hp.2]
        have hfil : (b :: rest).filter (fun c =>
            currentOrFutureB c today && strLeB c.name target.name)
            = b :: rest.filter (fun c =>
              currentOrFutureB c today && strLeB c.name target.name) := by
          rw [List.filter_cons_of_pos]
          simp [hcf, hble]
        rw [hfil, List.map_cons, List.sum_cons]
    · have e1 : projLoop db target today (b :: rest)
          = projLoop db target today rest := by
        simp [projLoop, hcf]
      rw [e1, ih hp.2]
      have hfil : (b :: rest).filter (fun c =>
          currentOrFutureB c today && strLeB c.name target.name)
          = rest.filter (fun c =>
            currentOrFutureB c today && strLeB c.name target.name) := by
        rw [List.filter_cons_of_neg]
        simp [hcf]
      rw [hfil]

theorem accum_eq_spec (db : DB) (target : Budget) (today : Dte) :
    _calculate_accumulated_remaining db target today = accumSpec db target today := by
  unfold _calculate_accumulated_remaining
  rw [accumLoop_eq_filter db target today _ (budgetsByName_sorted db target.project_id)]
  unfold accumSpec visitedBudgets
  have hperm := List.mergeSort_perm
    (db.budgets.filter (fun b => b.project_id == target.project_id))
    (fun a b : Budget => strLeB a.name b.name)
  have h1 := ((hperm.filter (fun c =>
      currentOrFutureB c today && strLeB c.name target.name)).map
    (accumContribution db target)).sum_eq
  unfold budgetsByName
  rw [h1, List.filter_filter]
  congr 1
  congr 1
  apply List.filter_congr
  intro c _
  cases h1 : currentOrFutureB c today <;>
    cases h2 : strLeB c.name target.name <;>
    cases h3 : (c.project_id == target.project_id) <;> rfl

theorem proj_eq_spec (db : DB) (target : Budget) (today : Dte) :
    _calculate_projected_net_balance db target today = projSpec db target today := by
  unfold _calculate_projected_net_balance
  rw [projLoop_eq_filter db target today _ (budgetsByName_sorted db target.project_id)]
  unfold projSpec visitedBudgets
  have hperm := List.mergeSort_perm
    (db.budgets.filter (fun b => b.project_id == target.project_id))
    (fun a b : Budget => strLeB a.name b.name)
  have h1 := ((hperm.filter (fun c =>
      currentOrFutureB c today && strLeB c.name target.name)).map
    (fun c => ((db.forecasts.filter (fun f => f.budget_id == c.id)).map
      (·.value)).sum)).sum_eq
  unfold budgetsByName
  rw [h1, List.filter_filter]
  congr 1
  congr 1
  apply List.filter_congr
  intro c _
  cases h1 : currentOrFutureB c today <;>
    cases h2 : strLeB c.name target.name <;>
    cases h3 : (c.project_id == target.project_id) <;> rfl

/-- C5: for a report on a budget whose end_date is after today
(`is_projected = true`), `accumulated_remaining` is the sum, over the
project's current-or-future budgets named no later than the target, of
(forecast value − actual) for each forecast of each visited budget, where
actual is the matching rule applied to that visited budget's own date-range
transactions; `projected_net_balance` is the sum of raw forecast values over
the same budgets; both fields are null when the budget is not projected. -/
theorem report_projection_fields (db : DB) (bid : Nat) (today : Dte) (b : Budget)
    (report : ReportRead)
    (hfind : db.budgets.find? (fun x => x.id == bid) = some b)
    (hrep : generate_report db bid today = Except.ok report) :
    (dateLtB today b.end_date = true →
      report.is_projected = true ∧
      report.accumulated_remaining = some (accumSpec db b today) ∧
      report.projected_net_balance = some (projSpec db b today)) ∧
    (dateLtB today b.end_date = false →
      report.is_projected = false ∧
      report.accumulated_remaining = none ∧
      report.projected_net_balance = none) := by
  unfold generate_report at hrep
  rw [hfind] at hrep
  dsimp only at hrep
  simp only [Except.ok.injEq] at hrep
  subst hrep
  constructor
  · intro hproj
    refine ⟨hproj, ?_, ?_⟩
    · dsimp only
      rw [if_pos hproj, accum_eq_spec]
    · dsimp only
      rw [if_pos hproj, proj_eq_spec]
  · intro hpast
    have hnp : ¬ (dateLtB today b.end_date = true) := by simp [hpast]
    exact ⟨hpast, by dsimp only; rw [if_neg hnp], by dsimp only; rw [if_neg hnp]⟩

/-- Witness for `report_projection_fields` at the sample store: the future
budget's report carries `accumulated_remaining = accumSpec` and
`projected_net_balance = projSpec`. -/
theorem report_projection_fields_witness :
    c5Report.accumulated_remaining = some (accumSpec c5Db c5Budget c5Today) ∧
    c5Report.projected_net_balance = some (projSpec c5Db c5Budget c5Today) := by
  have hacc : _calculate_accumulated_remaining c5Db c5Budget c5Today = -30 := by
    unfold _calculate_accumulated_remaining budgetsByName
    rw [show List.filter (fun b => b.project_id == c5Budget.project_id) c5Db.budgets
        = [c5Budget] from rfl]
    rw [List.mergeSort_singleton]
    decide
  have hproj : _calculate_projected_net_balance c5Db c5Budget c5Today = -50 := by
    unfold _calculate_projected_net_balance budgetsByName
    rw [show List.filter (fun b => b.project_id == c5Budget.project_id) c5Db.budgets
        = [c5Budget] from rfl]
    rw [List.mergeSort_singleton]
    decide
  have hrep : generate_report c5Db 10 c5Today = Except.ok c5Report := by
    unfold generate_report
    rw [show List.find? (fun x => x.id == (10 : Nat)) c5Db.budgets
        = some c5Budget from rfl]
    dsimp only
    rw [hacc, hproj]
    rfl
  have h := (report_projection_fields c5Db 10 c5Today c5Budget c5Report rfl hrep).1
    (by decide)
  exact ⟨h.2.1, h.2.2⟩

/-! ## C9 — month arithmetic coherence -/

theorem char_lt_iff_toNat (c d : Char) : c < d ↔ c.toNat < d.toNat := by
  rw [Char.lt_def]
  constructor
  · intro h
    simpa [Char.toNat, UInt32.lt_def, Fin.lt_def] using h
  · intro h
    simpa [Char.toNat, UInt32.lt_def, Fin.lt_def] using h

theorem isDigitB_toNat_bounds (c : Char) (h : isDigitB c = true) :
    48 ≤ c.toNat ∧ c.toNat ≤ 57 := by
  simp only [isDigitB, Bool.and_eq_true, decide_eq_true_eq] at h
  constructor
  · have h1 := h.1
    rw [Char.le_def] at h1
    simpa [Char.toNat, UInt32.le_def, Fin.le_def] using h1
  · have h2 := h.2
    rw [Char.le_def] at h2
    simpa [Char.toNat, UInt32.le_def, Fin.le_def] using h2

theorem digitChar_facts :
    ∀ d < 10, isDigitB (Nat.digitChar d) = true ∧
      charDigitVal (Nat.digitChar d) = d ∧ Nat.digitChar d ≠ '-' := by
  decide

theorem natDigits_facts (n : Nat) :
    (natDigits n).all isDigitB = true ∧ natDigits n ≠ [] ∧
      '-' ∉ natDigits n := by
  induction n using natDigits.induct with
  | case1 n h =>
    rw [natDigits, dif_pos h]
    have hd := digitChar_facts n h
    refine ⟨by simp [hd.1], by simp, ?_⟩
    simp only [List.mem_singleton]
    exact fun hh => hd.2.2 hh.symm
  | case2 n h ih =>
    rw [natDigits, dif_neg h]
    have hd := digitChar_facts (n % 10) (Nat.mod_lt _ (by omega))
    refine ⟨?_, by simp, ?_⟩
    · rw [List.all_append]
      simp [ih.1, hd.1]
    · simp only [List.mem_append, List.mem_singleton]
      rintro (hmem | heq)
      · exact ih.2.2 hmem
      · exact hd.2.2 heq.symm

theorem digitsVal_append_singleton (l : List Char) (c : Char) :
    digitsVal (l ++ [c]) = digitsVal l * 10 + charDigitVal c := by
  unfold digitsVal
  rw [List.foldl_append]
  rfl

theorem digitsVal_natDigits (n : Nat) : digitsVal (natDigits n) = n := by
  induction n using natDigits.induct with
  | case1 n h =>
    rw [natDigits, dif_pos h]
    have hd := digitChar_facts n h
    simp [digitsVal, hd.2.1]
  | case2 n h ih =>
    rw [natDigits, dif_neg h]
    rw [digitsVal_append_singleton, ih]
    have hd := digitChar_facts (n % 10) (Nat.mod_lt _ (by omega))
    rw [hd.2.1]
    omega

theorem natDigits_length_le (k : Nat) :
    ∀ n : Nat, n < 10 ^ k → 1 ≤ k → (natDigits n).length ≤ k := by
  induction k with
  | zero => intro n _ h1; omega
  | succ k ih =>
    intro n hn _
    by_cases h : n < 10
    · rw [natDigits, dif_pos h]
      simp
    · rw [natDigits, dif_neg h]
      rw [List.length_append]
      have : n / 10 < 10 ^ k := by
        rw [Nat.div_lt_iff_lt_mul (by omega)]
        calc n < 10 ^ (k + 1) := hn
        _ = 10 ^ k * 10 := by ring
      have hk1 : 1 ≤ k := by
        rcases Nat.eq_zero_or_pos k with rfl | hk
        · exfalso
          apply h
          simpa using hn
        · exact hk
      have := ih (n / 10) this hk1
      simp only [List.length_singleton]
      omega

theorem digitsVal_replicate_zero (k : Nat) (l : List Char) :
    digitsVal (List.replicate k '0' ++ l) = digitsVal l := by
  induction k with
  | zero => rfl
  | succ k ih =>
    rw [List.replicate_succ, List.cons_append]
    show digitsVal (List.replicate k '0' ++ l) = digitsVal l
    exact ih

theorem padLeft_facts (w : Nat) (l : List Char) :
    digitsVal (padLeft w l) = digitsVal l ∧
    (l.all isDigitB = true → (padLeft w l).all isDigitB = true) ∧
    ('-' ∉ l → '-' ∉ padLeft w l) ∧
    (padLeft w l).length = max w l.length ∧
    (l ≠ [] → padLeft w l ≠ []) := by
  refine ⟨digitsVal_replicate_zero _ _, ?_, ?_, ?_, ?_⟩
  · intro h
    unfold padLeft
    rw [List.all_append, Bool.and_eq_true]
    constructor
    · rw [List.all_eq_true]
      intro x hx
      rw [List.eq_of_mem_replicate hx]
      decide
    · exact h
  · intro h hmem
    unfold padLeft at hmem
    rcases List.mem_append.mp hmem with hrep | hl
    · have := List.eq_of_mem_replicate hrep
      cases this
    · exact h hl
  · unfold padLeft
    rw [List.length_append, List.length_replicate]
    omega
  · intro h
    unfold padLeft
    intro habs
    rw [List.append_eq_nil] at habs
    exact h habs.2

theorem splitDash_no_dash (l : List Char) (h : '-' ∉ l) : splitDash l = [l] := by
  induction l with
  | nil => rfl
  | cons c t ih =>
    have hc : ¬ c = '-' := fun hh => h (by simp [hh])
    simp only [splitDash]
    rw [if_neg hc, ih (by intro hm; exact h (List.mem_cons_of_mem _ hm))]

theorem splitDash_append (A B : List Char) (h : '-' ∉ A) :
    splitDash (A ++ '-' :: B) = A :: splitDash B := by
  induction A with
  | nil => simp [splitDash]
  | cons c t ih =>
    have hc : ¬ c = '-' := fun hh => h (by simp [hh])
    simp only [List.cons_append, splitDash]
    rw [if_neg hc]
    simp only [List.append_eq]
    rw [ih (by intro hm; exact h (List.mem_cons_of_mem _ hm))]

theorem parseMonth_renderTok (y m : Int) (hy : 0 ≤ y) (hm0 : 0 ≤ m) :
    parseMonth (renderTok y m) = some (y.toNat, m.toNat) := by
  have h4d := (padLeft_facts 4 (natDigits y.toNat)).2.1 (natDigits_facts y.toNat).1
  have h4n := (padLeft_facts 4 (natDigits y.toNat)).2.2.2.2 (natDigits_facts y.toNat).2.1
  have h4nd := (padLeft_facts 4 (natDigits y.toNat)).2.2.1 (natDigits_facts y.toNat).2.2
  have h2d := (padLeft_facts 2 (natDigits m.toNat)).2.1 (natDigits_facts m.toNat).1
  have h2n := (padLeft_facts 2 (natDigits m.toNat)).2.2.2.2 (natDigits_facts m.toNat).2.1
  have h2nd := (padLeft_facts 2 (natDigits m.toNat)).2.2.1 (natDigits_facts m.toNat).2.2
  have hq4 : toNatQ (padLeft 4 (natDigits y.toNat)) = some y.toNat := by
    unfold toNatQ
    rw [if_pos ⟨h4n, h4d⟩, (padLeft_facts 4 _).1, digitsVal_natDigits]
  have hq2 : toNatQ (padLeft 2 (natDigits m.toNat)) = some m.toNat := by
    unfold toNatQ
    rw [if_pos ⟨h2n, h2d⟩, (padLeft_facts 2 _).1, digitsVal_natDigits]
  unfold renderTok renderIntPad parseMonth
  rw [if_neg (by omega : ¬ y < 0), if_neg (by omega : ¬ m < 0)]
  rw [show (⟨padLeft 4 (natDigits y.toNat) ++ '-' :: padLeft 2 (natDigits m.toNat)⟩ :
      String).data
      = padLeft 4 (natDigits y.toNat) ++ '-' :: padLeft 2 (natDigits m.toNat) from rfl]
  rw [splitDash_append _ _ h4nd, splitDash_no_dash _ h2nd]
  dsimp only
  rw [hq4, hq2]

theorem isValidTok_renderTok (y m : Int) (hy0 : 0 ≤ y) (hy9 : y ≤ 9999)
    (hm1 : 1 ≤ m) (hm12 : m ≤ 12) : isValidTok (renderTok y m) = true := by
  unfold isValidTok
  rw [parseMonth_renderTok y m hy0 (by omega)]
  have hr : renderMonth y.toNat m.toNat = renderTok y m := by
    unfold renderMonth
    rw [Int.toNat_of_nonneg hy0, Int.toNat_of_nonneg (by omega : (0:Int) ≤ m)]
  dsimp only
  rw [hr]
  simp only [beq_self_eq_true, Bool.and_true]
  rw [Bool.and_eq_true, Bool.and_eq_true]
  refine ⟨⟨?_, ?_⟩, ?_⟩ <;> rw [decide_eq_true_eq] <;> omega

theorem isValidTok_bounds (s : String) (y m : Nat) (hv : isValidTok s = true)
    (hp : parseMonth s = some (y, m)) :
    1 ≤ m ∧ m ≤ 12 ∧ y ≤ 9999 := by
  unfold isValidTok at hv
  rw [hp] at hv
  dsimp only at hv
  rw [Bool.and_eq_true, Bool.and_eq_true, Bool.and_eq_true] at hv
  refine ⟨?_, ?_, ?_⟩
  · have := hv.1.1.1
    rwa [decide_eq_true_eq] at this
  · have := hv.1.1.2
    rwa [decide_eq_true_eq] at this
  · have := hv.1.2
    rwa [decide_eq_true_eq] at this

theorem month_offset_ok (s : String) (y m : Nat) (n : Int)
    (hv : isValidTok s = true) (hp : parseMonth s = some (y, m))
    (hlo : 0 ≤ (y : Int) * 12 + ((m : Int) - 1) + n)
    (hhi : (y : Int) * 12 + ((m : Int) - 1) + n ≤ 9999 * 12 + 11) :
    ∃ t, _month_offset s n = some t ∧ isValidTok t = true ∧
      _months_between s t = some n := by
  obtain ⟨hm1, hm12, hy9⟩ := isValidTok_bounds s y m hv hp
  have hc := carryUp_spec (y : Int) ((m : Int) + n)
  have hb := borrowDown_spec (carryUp (y : Int) ((m : Int) + n)).1
    (carryUp (y : Int) ((m : Int) + n)).2
  set Q1 := (borrowDown (carryUp (y : Int) ((m : Int) + n)).1
    (carryUp (y : Int) ((m : Int) + n)).2).1 with hQ1
  set Q2 := (borrowDown (carryUp (y : Int) ((m : Int) + n)).1
    (carryUp (y : Int) ((m : Int) + n)).2).2 with hQ2
  have hsum : Q1 * 12 + Q2 = (y : Int) * 12 + (m : Int) + n := by
    rw [hQ1, hQ2, hb.1, hc.1]; ring
  have hQ2b : 1 ≤ Q2 ∧ Q2 ≤ 12 := ⟨hb.2.1, hb.2.2 hc.2.1⟩
  have hQ1b : 0 ≤ Q1 ∧ Q1 ≤ 9999 := by omega
  have hoff : _month_offset s n = some (renderTok Q1 Q2) := by
    unfold _month_offset
    rw [hp]
  refine ⟨renderTok Q1 Q2, hoff, ?_, ?_⟩
  · exact isValidTok_renderTok Q1 Q2 hQ1b.1 hQ1b.2 hQ2b.1 hQ2b.2
  · unfold _months_between
    rw [hp, parseMonth_renderTok Q1 Q2 hQ1b.1 (by omega)]
    dsimp only
    have e1 : ((Q1.toNat : Int)) = Q1 := Int.toNat_of_nonneg hQ1b.1
    have e2 : ((Q2.toNat : Int)) = Q2 := Int.toNat_of_nonneg (by omega)
    rw [e1, e2]
    congr 1
    omega

theorem month_offset_comp (s : String) (y m : Nat) (a b : Int) (t : String)
    (hv : isValidTok s = true) (hp : parseMonth s = some (y, m))
    (hlo : 0 ≤ (y : Int) * 12 + ((m : Int) - 1) + a)
    (hhi : (y : Int) * 12 + ((m : Int) - 1) + a ≤ 9999 * 12 + 11)
    (hoff : _month_offset s a = some t) :
    _month_offset t b = _month_offset s (a + b) := by
  obtain ⟨hm1, hm12, hy9⟩ := isValidTok_bounds s y m hv hp
  have hc := carryUp_spec (y : Int) ((m : Int) + a)
  have hb := borrowDown_spec (carryUp (y : Int) ((m : Int) + a)).1
    (carryUp (y : Int) ((m : Int) + a)).2
  set Q1 := (borrowDown (carryUp (y : Int) ((m : Int) + a)).1
    (carryUp (y : Int) ((m : Int) + a)).2).1 with hQ1
  set Q2 := (borrowDown (carryUp (y : Int) ((m : Int) + a)).1
    (carryUp (y : Int) ((m : Int) + a)).2).2 with hQ2
  have hsum : Q1 * 12 + Q2 = (y : Int) * 12 + (m : Int) + a := by
    rw [hQ1, hQ2, hb.1, hc.1]; ring
  have hQ2b : 1 ≤ Q2 ∧ Q2 ≤ 12 := ⟨hb.2.1, hb.2.2 hc.2.1⟩
  have hQ1b : 0 ≤ Q1 ∧ Q1 ≤ 9999 := by omega
  have ht : t = renderTok Q1 Q2 := by
    unfold _month_offset at hoff
    rw [hp] at hoff
    dsimp only at hoff
    simp only [Option.some_inj] at hoff
    exact hoff.symm
  subst ht
  have hc2 := carryUp_spec Q1 (Q2 + b)
  have hb2 := borrowDown_spec (carryUp Q1 (Q2 + b)).1 (carryUp Q1 (Q2 + b)).2
  have hc3 := carryUp_spec (y : Int) ((m : Int) + (a + b))
  have hb3 := borrowDown_spec (carryUp (y : Int) ((m : Int) + (a + b))).1
    (carryUp (y : Int) ((m : Int) + (a + b))).2
  have hL : _month_offset (renderTok Q1 Q2) b
      = some (renderTok
          (borrowDown (carryUp Q1 (Q2 + b)).1 (carryUp Q1 (Q2 + b)).2).1
          (borrowDown (carryUp Q1 (Q2 + b)).1 (carryUp Q1 (Q2 + b)).2).2) := by
    unfold _month_offset
    rw [parseMonth_renderTok Q1 Q2 hQ1b.1 (by omega)]
    dsimp only
    rw [Int.toNat_of_nonneg hQ1b.1, Int.toNat_of_nonneg (by omega : (0:Int) ≤ Q2)]
  have hR : _month_offset s (a + b)
      = some (renderTok
          (borrowDown (carryUp (y : Int) ((m : Int) + (a + b))).1
            (carryUp (y : Int) ((m : Int) + (a + b))).2).1
          (borrowDown (carryUp (y : Int) ((m : Int) + (a + b))).1
            (carryUp (y : Int) ((m : Int) + (a + b))).2).2) := by
    unfold _month_offset
    rw [hp]
  rw [hL, hR]
  have h1 : (borrowDown (carryUp Q1 (Q2 + b)).1 (carryUp Q1 (Q2 + b)).2).1
      = (borrowDown (carryUp (y : Int) ((m : Int) + (a + b))).1
          (carryUp (y : Int) ((m : Int) + (a + b))).2).1 := by
    have e1 := hb2.1
    rw [hc2.1] at e1
    have e2 := hb3.1
    rw [hc3.1] at e2
    have r1 := hb2.2.1
    have r2 := hb2.2.2 hc2.2.1
    have r3 := hb3.2.1
    have r4 := hb3.2.2 hc3.2.1
    omega
  have h2 : (borrowDown (carryUp Q1 (Q2 + b)).1 (carryUp Q1 (Q2 + b)).2).2
      = (borrowDown (carryUp (y : Int) ((m : Int) + (a + b))).1
          (carryUp (y : Int) ((m : Int) + (a + b))).2).2 := by
    have e1 := hb2.1
    rw [hc2.1] at e1
    have e2 := hb3.1
    rw [hc3.1] at e2
    have r1 := hb2.2.1
    have r2 := hb2.2.2 hc2.2.1
    have r3 := hb3.2.1
    have r4 := hb3.2.2 hc3.2.1
    omega
  rw [h1, h2]

theorem digitsVal_foldl (l : List Char) :
    ∀ a : Nat, List.foldl (fun a c => a * 10 + charDigitVal c) a l
      = a * 10 ^ l.length + digitsVal l := by
  induction l with
  | nil => intro a; simp [digitsVal]
  | cons c t ih =>
    intro a
    rw [List.foldl_cons, ih]
    have hc : digitsVal (c :: t)
        = List.foldl (fun a c => a * 10 + charDigitVal c) (0 * 10 + charDigitVal c) t := rfl
    rw [hc, ih, List.length_cons, pow_succ]
    ring

theorem digitsVal_cons (c : Char) (t : List Char) :
    digitsVal (c :: t) = charDigitVal c * 10 ^ t.length + digitsVal t := by
  have h : digitsVal (c :: t)
      = List.foldl (fun a c => a * 10 + charDigitVal c) (0 * 10 + charDigitVal c) t := rfl
  rw [h, digitsVal_foldl t]
  ring

theorem digitsVal_lt (l : List Char) (h : l.all isDigitB = true) :
    digitsVal l < 10 ^ l.length := by
  induction l with
  | nil => simp [digitsVal]
  | cons c t ih =>
    rw [List.all_cons, Bool.and_eq_true] at h
    have hc := isDigitB_toNat_bounds c h.1
    have ht := ih h.2
    rw [digitsVal_cons, List.length_cons, pow_succ]
    have hcv : charDigitVal c ≤ 9 := by unfold charDigitVal; omega
    have h9 : charDigitVal c * 10 ^ t.length ≤ 9 * 10 ^ t.length :=
      Nat.mul_le_mul_right _ hcv
    omega

theorem digitsVal_head_lt (a b : Char) (as bs : List Char)
    (hlen : as.length = bs.length) (h1 : as.all isDigitB = true)
    (hab : charDigitVal a < charDigitVal b) :
    digitsVal (a :: as) < digitsVal (b :: bs) := by
  rw [digitsVal_cons, digitsVal_cons, hlen]
  have hd := digitsVal_lt as h1
  rw [hlen] at hd
  calc charDigitVal a * 10 ^ bs.length + digitsVal as
      < charDigitVal a * 10 ^ bs.length + 10 ^ bs.length := by omega
    _ = (charDigitVal a + 1) * 10 ^ bs.length := by ring
    _ ≤ charDigitVal b * 10 ^ bs.length := Nat.mul_le_mul_right _ (by omega)
    _ ≤ charDigitVal b * 10 ^ bs.length + digitsVal bs := Nat.le_add_right _ _

theorem listLtB_digits (l1 : List Char) : ∀ l2 : List Char,
    l1.length = l2.length → l1.all isDigitB = true → l2.all isDigitB = true →
    listLtB l1 l2 = decide (digitsVal l1 < digitsVal l2) := by
  induction l1 with
  | nil =>
    intro l2 hlen _ _
    cases l2 with
    | nil => rfl
    | cons b bs => simp at hlen
  | cons a as ih =>
    intro l2 hlen h1 h2
    cases l2 with
    | nil => simp at hlen
    | cons b bs =>
      have hlen' : as.length = bs.length := by simpa using hlen
      rw [List.all_cons, Bool.and_eq_true] at h1 h2
      have ha := isDigitB_toNat_bounds a h1.1
      have hb := isDigitB_toNat_bounds b h2.1
      show (if a < b then true else if b < a then false else listLtB as bs) = _
      by_cases hab : a < b
      · rw [if_pos hab]
        rw [char_lt_iff_toNat] at hab
        have hdv : charDigitVal a < charDigitVal b := by unfold charDigitVal; omega
        symm
        rw [decide_eq_true_eq]
        exact digitsVal_head_lt a b as bs hlen' h1.2 hdv
      · by_cases hba : b < a
        · rw [if_neg hab, if_pos hba]
          rw [char_lt_iff_toNat] at hba
          have hdv : charDigitVal b < charDigitVal a := by unfold charDigitVal; omega
          symm
          rw [decide_eq_false_iff_not]
          exact Nat.not_lt.mpr (Nat.le_of_lt
            (digitsVal_head_lt b a bs as hlen'.symm h2.2 hdv))
        · rw [if_neg hab, if_neg hba, ih bs hlen' h1.2 h2.2]
          rw [char_lt_iff_toNat] at hab hba
          have hdv : charDigitVal a = charDigitVal b := by unfold charDigitVal; omega
          have hiff : digitsVal as < digitsVal bs ↔
              digitsVal (a :: as) < digitsVal (b :: bs) := by
            rw [digitsVal_cons, digitsVal_cons, hlen', hdv]
            omega
          exact decide_eq_decide.mpr hiff

theorem listLtB_append_cong (A1 : List Char) : ∀ (A2 r1 r2 : List Char),
    A1.length = A2.length →
    listLtB (A1 ++ r1) (A2 ++ r2)
      = (listLtB A1 A2 || (!listLtB A2 A1 && listLtB r1 r2)) := by
  induction A1 with
  | nil =>
    intro A2 r1 r2 hlen
    cases A2 with
    | nil => simp [listLtB]
    | cons b bs => simp at hlen
  | cons a as ih =>
    intro A2 r1 r2 hlen
    cases A2 with
    | nil => simp at hlen
    | cons b bs =>
      have hlen' : as.length = bs.length := by simpa using hlen
      show (if a < b then true else if b < a then false
              else listLtB (as ++ r1) (bs ++ r2))
          = ((if a < b then true else if b < a then false else listLtB as bs)
              || (!(if b < a then true else if a < b then false else listLtB bs as)
                  && listLtB r1 r2))
      by_cases hab : a < b
      · have hba : ¬ b < a := by
          rw [char_lt_iff_toNat] at hab ⊢; omega
        simp [hab, hba]
      · by_cases hba : b < a
        · simp [hab, hba]
        · simp only [if_neg hab, if_neg hba]
          exact ih bs r1 r2 hlen'

theorem listLtB_dash_cons (r1 r2 : List Char) :
    listLtB ('-' :: r1) ('-' :: r2) = listLtB r1 r2 := by
  show (if '-' < '-' then true else if '-' < '-' then false else listLtB r1 r2) = _
  rw [if_neg (by decide), if_neg (by decide)]

theorem isValidTok_canonical (s : String) (y m : Nat) (hv : isValidTok s = true)
    (hp : parseMonth s = some (y, m)) : s = renderMonth y m := by
  unfold isValidTok at hv
  rw [hp] at hv
  dsimp only at hv
  rw [Bool.and_eq_true] at hv
  exact eq_of_beq hv.2

theorem strLtB_renderTok (y1 m1 y2 m2 : Int)
    (hy1l : 0 ≤ y1) (hy1h : y1 ≤ 9999) (hm1l : 1 ≤ m1) (hm1h : m1 ≤ 12)
    (hy2l : 0 ≤ y2) (hy2h : y2 ≤ 9999) (hm2l : 1 ≤ m2) (hm2h : m2 ≤ 12) :
    strLtB (renderTok y1 m1) (renderTok y2 m2)
      = decide (y1 * 12 + m1 < y2 * 12 + m2) := by
  have hylen : ∀ y : Int, 0 ≤ y → y ≤ 9999 →
      (padLeft 4 (natDigits y.toNat)).length = 4 := by
    intro y h0 h9
    rw [(padLeft_facts 4 (natDigits y.toNat)).2.2.2.1]
    have := natDigits_length_le 4 y.toNat (by omega) (by omega)
    omega
  have hmlen : ∀ m : Int, 0 ≤ m → m ≤ 12 →
      (padLeft 2 (natDigits m.toNat)).length = 2 := by
    intro m h0 h9
    rw [(padLeft_facts 2 (natDigits m.toNat)).2.2.2.1]
    have := natDigits_length_le 2 m.toNat (by omega) (by omega)
    omega
  have hdig : ∀ v : Int, (padLeft 4 (natDigits v.toNat)).all isDigitB = true ∧
      (padLeft 2 (natDigits v.toNat)).all isDigitB = true :=
    fun v => ⟨(padLeft_facts 4 (natDigits v.toNat)).2.1 (natDigits_facts v.toNat).1,
      (padLeft_facts 2 (natDigits v.toNat)).2.1 (natDigits_facts v.toNat).1⟩
  have hval4 : ∀ v : Int, digitsVal (padLeft 4 (natDigits v.toNat)) = v.toNat :=
    fun v => by rw [(padLeft_facts 4 (natDigits v.toNat)).1, digitsVal_natDigits]
  have hval2 : ∀ v : Int, digitsVal (padLeft 2 (natDigits v.toNat)) = v.toNat :=
    fun v => by rw [(padLeft_facts 2 (natDigits v.toNat)).1, digitsVal_natDigits]
  have hr : ∀ (y m : Int), 0 ≤ y → 0 ≤ m → (renderTok y m).data
      = padLeft 4 (natDigits y.toNat) ++ '-' :: padLeft 2 (natDigits m.toNat) := by
    intro y m h0y h0m
    unfold renderTok renderIntPad
    rw [if_neg (by omega), if_neg (by omega)]
  unfold strLtB
  rw [hr y1 m1 hy1l (by omega), hr y2 m2 hy2l (by omega)]
  rw [listLtB_append_cong _ _ _ _
    (by rw [hylen y1 hy1l hy1h, hylen y2 hy2l hy2h])]
  rw [listLtB_dash_cons]
  rw [listLtB_digits _ _ (by rw [hylen y1 hy1l hy1h, hylen y2 hy2l hy2h])
    (hdig y1).1 (hdig y2).1]
  rw [listLtB_digits _ _ (by rw [hylen y2 hy2l hy2h, hylen y1 hy1l hy1h])
    (hdig y2).1 (hdig y1).1]
  rw [listLtB_digits _ _
    (by rw [hmlen m1 (by omega) hm1h, hmlen m2 (by omega) hm2h])
    (hdig m1).2 (hdig m2).2]
  rw [hval4 y1, hval4 y2, hval2 m1, hval2 m2]
  rcases Nat.lt_or_ge y1.toNat y2.toNat with h | h
  · rw [decide_eq_true h, Bool.true_or]
    symm
    rw [decide_eq_true_eq]
    omega
  · rw [decide_eq_false (by omega : ¬ y1.toNat < y2.toNat)]
    rcases Nat.lt_or_ge y2.toNat y1.toNat with h2 | h2
    · rw [decide_eq_true h2, Bool.false_or, Bool.not_true, Bool.false_and]
      symm
      rw [decide_eq_false_iff_not]
      omega
    · rw [decide_eq_false (by omega : ¬ y2.toNat < y1.toNat)]
      have hyy : y1 = y2 := by omega
      subst hyy
      rw [Bool.false_or, Bool.not_false, Bool.true_and]
      exact decide_eq_decide.mpr (by omega)

/-- C9: Month arithmetic is coherent: for every valid YYYY-MM token (month
01-12, zero-padded four-digit year) and every integer offset keeping the
result year within 0000-9999, `_month_offset` returns a valid token whose
`_months_between` distance from the start is exactly the offset; offsetting
composes additively; and on valid tokens lexicographic string comparison
(Python `<` / `<=`, embedded as strLtB / strLeB) agrees with numeric
comparison of year*12 + month. -/
theorem month_arithmetic_coherent :
    (∀ (s : String) (y m : Nat) (n : Int),
      isValidTok s = true → parseMonth s = some (y, m) →
      0 ≤ (y : Int) * 12 + ((m : Int) - 1) + n →
      (y : Int) * 12 + ((m : Int) - 1) + n ≤ 9999 * 12 + 11 →
      ∃ t, _month_offset s n = some t ∧ isValidTok t = true ∧
        _months_between s t = some n) ∧
    (∀ (s : String) (y m : Nat) (a b : Int) (t : String),
      isValidTok s = true → parseMonth s = some (y, m) →
      0 ≤ (y : Int) * 12 + ((m : Int) - 1) + a →
      (y : Int) * 12 + ((m : Int) - 1) + a ≤ 9999 * 12 + 11 →
      _month_offset s a = some t →
      _month_offset t b = _month_offset s (a + b)) ∧
    (∀ (s t : String) (y1 m1 y2 m2 : Nat),
      isValidTok s = true → isValidTok t = true →
      parseMonth s = some (y1, m1) → parseMonth t = some (y2, m2) →
      (strLtB s t = true ↔ y1 * 12 + m1 < y2 * 12 + m2) ∧
      (strLeB s t = true ↔ y1 * 12 + m1 ≤ y2 * 12 + m2)) := by
  refine ⟨fun s y m n hv hp hlo hhi => month_offset_ok s y m n hv hp hlo hhi,
    fun s y m a b t hv hp hlo hhi hoff =>
      month_offset_comp s y m a b t hv hp hlo hhi hoff,
    fun s t y1 m1 y2 m2 hvs hvt hps hpt => ?_⟩
  obtain ⟨hm1l, hm1h, hy1h⟩ := isValidTok_bounds s y1 m1 hvs hps
  obtain ⟨hm2l, hm2h, hy2h⟩ := isValidTok_bounds t y2 m2 hvt hpt
  have hcs := isValidTok_canonical s y1 m1 hvs hps
  have hct := isValidTok_canonical t y2 m2 hvt hpt
  subst hcs
  subst hct
  have hlt := strLtB_renderTok (y1 : Int) (m1 : Int) (y2 : Int) (m2 : Int)
    (by omega) (by omega) (by omega) (by omega)
    (by omega) (by omega) (by omega) (by omega)
  have hgt := strLtB_renderTok (y2 : Int) (m2 : Int) (y1 : Int) (m1 : Int)
    (by omega) (by omega) (by omega) (by omega)
    (by omega) (by omega) (by omega) (by omega)
  constructor
  · unfold renderMonth
    rw [hlt, decide_eq_true_eq]
    omega
  · unfold strLeB renderMonth
    rw [hgt, Bool.not_eq_true', decide_eq_false_iff_not]
    omega

/-- Witness: month_arithmetic_coherent at 2025-11 with offset 3 (validity and
distance), composition of offsets 3 and 5 from 2025-11, and comparison of
2025-06 with 2025-11. -/
theorem month_arithmetic_coherent_witness :
    (∃ t, _month_offset (renderTok 2025 11) 3 = some t ∧ isValidTok t = true ∧
      _months_between (renderTok 2025 11) t = some 3) ∧
    (∃ t, _month_offset (renderTok 2025 11) 3 = some t ∧
      _month_offset t 5 = _month_offset (renderTok 2025 11) (3 + 5)) ∧
    (strLtB (renderTok 2025 6) (renderTok 2025 11) = true ↔
      2025 * 12 + 6 < 2025 * 12 + 11) := by
  have hv1 : isValidTok (renderTok 2025 11) = true :=
    isValidTok_renderTok 2025 11 (by norm_num) (by norm_num) (by norm_num) (by norm_num)
  have hp1 : parseMonth (renderTok 2025 11) = some (2025, 11) := by
    rw [parseMonth_renderTok 2025 11 (by norm_num) (by norm_num)]
    rfl
  have hv6 : isValidTok (renderTok 2025 6) = true :=
    isValidTok_renderTok 2025 6 (by norm_num) (by norm_num) (by norm_num) (by norm_num)
  have hp6 : parseMonth (renderTok 2025 6) = some (2025, 6) := by
    rw [parseMonth_renderTok 2025 6 (by norm_num) (by norm_num)]
    rfl
  obtain ⟨t, hofft, hvt, hmbt⟩ :=
    month_arithmetic_coherent.1 (renderTok 2025 11) 2025 11 3 hv1 hp1
      (by norm_num) (by norm_num)
  refine ⟨⟨t, hofft, hvt, hmbt⟩, ⟨t, hofft, ?_⟩, ?_⟩
  · exact month_arithmetic_coherent.2.1 (renderTok 2025 11) 2025 11 3 5 t
      hv1 hp1 (by norm_num) (by norm_num) hofft
  · exact (month_arithmetic_coherent.2.2 (renderTok 2025 6) (renderTok 2025 11)
      2025 6 2025 11 hv6 hv1 hp6 hp1).1
